import Mathlib

/-
Formal model of the xray_projection_render renderer (Go).

The Go code works on float64; the model uses exact reals, so every
theorem below is about the ideal real-arithmetic behaviour of the
algorithms in src/main.go, src/objects/objects.go and
src/deformations/deformations.go.  Loops over real-valued counters are
modelled by a recursion on the iteration count of the corresponding Go
for-loop; the count is computed from the loop bounds exactly as the
real-valued loop would execute for a positive step.
-/

/-- mgl64.Vec3: a 3-vector of float64, modelled over the reals. -/
structure Vec3 where
  x : ℝ
  y : ℝ
  z : ℝ

/-- mgl64 Vec3.Len: Euclidean length. -/
noncomputable def Vec3.Len (v : Vec3) : ℝ :=
  Real.sqrt (v.x * v.x + v.y * v.y + v.z * v.z)

/-- mgl64 Vec3.Normalize: multiply by the reciprocal of the length
(1/0 = 0 in the real model where Go would produce Inf/NaN; no claim
evaluates it on the zero vector). -/
noncomputable def Vec3.Normalize (v : Vec3) : Vec3 :=
  let l := 1 / v.Len
  ⟨v.x * l, v.y * l, v.z * l⟩

/-- The process-wide mutable render configuration of main.go:
`lat` holds the Density method of the single loaded object (lat[0]),
`df` holds the Apply methods of the loaded deformations, and
`density_multiplier` / `flat_field` are the two global scalars. -/
structure RenderState where
  lat : ℝ → ℝ → ℝ → ℝ
  df : List (ℝ → ℝ → ℝ → ℝ × ℝ × ℝ)
  density_multiplier : ℝ
  flat_field : ℝ

/-- main.go deform: apply the single loaded deformation, or the identity
when none is loaded.  With two or more deformations the Go code calls
log.Fatal (process abort); that unreachable branch returns the input. -/
def deform (g : RenderState) (x y z : ℝ) : ℝ × ℝ × ℝ :=
  match g.df with
  | [] => (x, y, z)
  | [d] => d x y z
  | _ => (x, y, z)

/-- main.go density: deform the coordinates, then evaluate the loaded
object and scale by the global density multiplier. -/
def density (g : RenderState) (x y z : ℝ) : ℝ :=
  match deform g x y z with
  | (x, y, z) => g.lat x y z * g.density_multiplier

/-- Iteration count of the Go loop `for s := smin; s < smax; s += ds`:
for ds > 0 the loop body runs for s = smin + i*ds with i < (smax-smin)/ds,
hence ceil((smax-smin)/ds) times (0 when the window is empty). -/
noncomputable def rayStepCount (smin smax ds : ℝ) : ℕ :=
  (⌈(smax - smin) / ds⌉).toNat

/-- Body of the Go loop in integrate_along_ray: starting at sample point s,
run n iterations of `T += f(s) * ds; s += ds` and return the total added. -/
noncomputable def riemannLoop (f : ℝ → ℝ) (ds : ℝ) : ℕ → ℝ → ℝ
  | 0, _ => 0
  | n + 1, s => f s * ds + riemannLoop f ds n (s + ds)

/-- main.go integrate_along_ray: normalize the direction, initialise
T to flat_field, accumulate density * ds along the ray at fixed step ds
over [smin, smax), and return exp(-T). -/
noncomputable def integrate_along_ray (g : RenderState) (origin direction : Vec3)
    (ds smin smax : ℝ) : ℝ :=
  let dir := direction.Normalize
  let f := fun s => density g (origin.x + dir.x * s) (origin.y + dir.y * s) (origin.z + dir.z * s)
  Real.exp (-(g.flat_field + riemannLoop f ds (rayStepCount smin smax ds) smin))

/-- Iteration count of the Go loop `right := smin + DS; for right <= smax ...
right += DS`: for DS > 0 the body runs for right = smin + k*DS with
1 <= k <= (smax-smin)/DS, hence floor((smax-smin)/DS) times. -/
noncomputable def coarseStepCount (smin smax DS : ℝ) : ℕ :=
  (⌊(smax - smin) / DS⌋).toNat

/-- Body of the sliding-window loop of main.go integrate_hierarchical.
State per coarse step: `left` (previous coarse sample position), `prev`
(density at the previous coarse sample, 0 initially) and the accumulator
`T`.  On a positivity transition between prev and the density at
right = left + DS, the inner fine loop `left += ds; for left < right`
re-integrates the interior samples of the bracket at step ds (this is
riemannLoop started at left + ds) and then the right-edge sample value is
added once more with weight ds; otherwise the coarse contribution
rho * DS is added. -/
noncomputable def hierLoop (f : ℝ → ℝ) (ds DS : ℝ) : ℕ → ℝ → ℝ → ℝ → ℝ
  | 0, _, _, T => T
  | n + 1, left, prev, T =>
      let right := left + DS
      let rho := f right
      if ¬((rho = 0) ↔ (prev = 0)) then
        hierLoop f ds DS n right rho
          (T + riemannLoop f ds (rayStepCount (left + ds) right ds) (left + ds) + rho * ds)
      else
        hierLoop f ds DS n right rho (T + rho * DS)

/-- main.go integrate_hierarchical: normalize the direction, set the fine
step to DS/10, initialise T to flat_field, run the sliding-window loop
from left = smin with prev_rho = 0, and return exp(-T).  The two density
evaluations at smin and smax in the source only drive one-time log
warnings and do not affect the returned value. -/
noncomputable def integrate_hierarchical (g : RenderState) (origin direction : Vec3)
    (DS smin smax : ℝ) : ℝ :=
  let dir := direction.Normalize
  let f := fun s => density g (origin.x + dir.x * s) (origin.y + dir.y * s) (origin.z + dir.z * s)
  let ds := DS / 10
  Real.exp (-(hierLoop f ds DS (coarseStepCount smin smax DS) smin 0 g.flat_field))

/-- Written from the words of the spec for comparison with
integrate_along_ray: the flat-field bias is made part of the integrand,
so each left-Riemann term is (density + flat_field) * ds and no constant
flat_field term is added to the exponent. -/
noncomputable def integrate_along_ray_specFlatInIntegrand (g : RenderState)
    (origin direction : Vec3) (ds smin smax : ℝ) : ℝ :=
  let dir := direction.Normalize
  let f := fun s =>
    density g (origin.x + dir.x * s) (origin.y + dir.y * s) (origin.z + dir.z * s) + g.flat_field
  Real.exp (-(riemannLoop f ds (rayStepCount smin smax ds) smin))

/-- Written from the words of the spec for comparison with hierLoop:
on a bracketed transition, re-integrate only the LEFT HALF of the bracket
[left, left + DS/2) at fine step ds and then add the right-edge sample
once more; otherwise accumulate rho * DS. -/
noncomputable def hierLoopSpecLeftHalf (f : ℝ → ℝ) (ds DS : ℝ) : ℕ → ℝ → ℝ → ℝ → ℝ
  | 0, _, _, T => T
  | n + 1, left, prev, T =>
      let right := left + DS
      let rho := f right
      if ¬((rho = 0) ↔ (prev = 0)) then
        hierLoopSpecLeftHalf f ds DS n right rho
          (T + riemannLoop f ds (rayStepCount left (left + DS / 2) ds) left + rho * ds)
      else
        hierLoopSpecLeftHalf f ds DS n right rho (T + rho * DS)

/-- The left-half refinement strategy of the spec, wrapped like
integrate_hierarchical. -/
noncomputable def integrate_hierarchical_specLeftHalf (g : RenderState)
    (origin direction : Vec3) (DS smin smax : ℝ) : ℝ :=
  let dir := direction.Normalize
  let f := fun s => density g (origin.x + dir.x * s) (origin.y + dir.y * s) (origin.z + dir.z * s)
  let ds := DS / 10
  Real.exp (-(hierLoopSpecLeftHalf f ds DS (coarseStepCount smin smax DS) smin 0 g.flat_field))

/-- objects.go ObjectCollection: the ordered children and the greedy
flag.  The Object interface is abstracted by the only method the
collection code invokes on a child, Density : (x, y, z) -> rho. -/
structure ObjectCollection where
  Objects : List (ℝ → ℝ → ℝ → ℝ)
  GreedyDensEval : Bool

/-- Loop body of ObjectCollection.Density: iterate the children in
order accumulating rho; in greedy mode return the first strictly
positive child density immediately (bypassing the final clip); after
the loop clip the accumulator to [0, 1]. -/
noncomputable def densityLoop (greedy : Bool) (x y z : ℝ) : List (ℝ → ℝ → ℝ → ℝ) → ℝ → ℝ
  | [], acc => if acc < 0 then 0 else if acc > 1 then 1 else acc
  | f :: rest, acc =>
      let rho := f x y z
      if greedy = true ∧ rho > 0 then rho else densityLoop greedy x y z rest (acc + rho)

/-- objects.go ObjectCollection.Density. -/
noncomputable def ObjectCollection.Density (oc : ObjectCollection) (x y z : ℝ) : ℝ :=
  densityLoop oc.GreedyDensEval x y z oc.Objects 0

/-- objects.go UnitCell: an ObjectCollection plus axis-aligned bounds. -/
structure UnitCell where
  Objects : ObjectCollection
  Xmin : ℝ
  Xmax : ℝ
  Ymin : ℝ
  Ymax : ℝ
  Zmin : ℝ
  Zmax : ℝ

/-- objects.go UnitCell.Density: zero outside the bounds, otherwise the
density of the embedded collection. -/
noncomputable def UnitCell.Density (uc : UnitCell) (x y z : ℝ) : ℝ :=
  if x < uc.Xmin ∨ x > uc.Xmax ∨ y < uc.Ymin ∨ y > uc.Ymax ∨ z < uc.Zmin ∨ z > uc.Zmax then 0
  else uc.Objects.Density x y z

/-- objects.go TessellatedObjColl: a unit cell plus outer bounds for the
tessellation. -/
structure TessellatedObjColl where
  UC : UnitCell
  Xmin : ℝ
  Xmax : ℝ
  Ymin : ℝ
  Ymax : ℝ
  Zmin : ℝ
  Zmax : ℝ

/-- objects.go TessellatedObjColl.Density: zero outside the outer
bounds; otherwise fold each coordinate into the unit cell with
x - dx * floor((x - ucXmin)/dx) and evaluate the unit cell. -/
noncomputable def TessellatedObjColl.Density (l : TessellatedObjColl) (x y z : ℝ) : ℝ :=
  if x < l.Xmin ∨ x > l.Xmax ∨ y < l.Ymin ∨ y > l.Ymax ∨ z < l.Zmin ∨ z > l.Zmax then 0
  else
    let dx := l.UC.Xmax - l.UC.Xmin
    let x := x - dx * ⌊(x - l.UC.Xmin) / dx⌋
    let dy := l.UC.Ymax - l.UC.Ymin
    let y := y - dy * ⌊(y - l.UC.Ymin) / dy⌋
    let dz := l.UC.Zmax - l.UC.Zmin
    let z := z - dz * ⌊(z - l.UC.Zmin) / dz⌋
    l.UC.Density x y z

/-- Written from the words of the spec for comparison: clip to the
interval [0, 1]. -/
noncomputable def clipSpec (d : ℝ) : ℝ := min 1 (max 0 d)

/-- Sum of the child densities at a point. -/
def childDensitySum (objs : List (ℝ → ℝ → ℝ → ℝ)) (x y z : ℝ) : ℝ :=
  (objs.map (fun f => f x y z)).sum

/-- Written from the words of the spec for comparison: the density of
the first child in insertion order whose density at the point is
strictly positive, or 0 when no child is positive. -/
noncomputable def firstPositiveSpec (x y z : ℝ) : List (ℝ → ℝ → ℝ → ℝ) → ℝ
  | [] => 0
  | f :: rest => if f x y z > 0 then f x y z else firstPositiveSpec x y z rest

/-- A 3x3 float64 matrix ([3][3]float64 in Go). -/
structure Mat3 where
  m00 : ℝ
  m01 : ℝ
  m02 : ℝ
  m10 : ℝ
  m11 : ℝ
  m12 : ℝ
  m20 : ℝ
  m21 : ℝ
  m22 : ℝ

/-- deformations.go: the Deformation variants.  Each variant carries
exactly the semantic fields of the corresponding Go struct, including
the Type string read back from the descriptor. -/
inductive Def where
  | gaussian (amplitudes sigmas centers : List ℝ) (ty : String)
  | affine (matrix : Mat3) (ty : String)
  | linear (strains : List ℝ) (ty : String)
  | rigid (displacements : List ℝ) (ty : String)
  | sigmoid (amplitude center lengthscale : ℝ) (direction ty : String)
  | composed (deformations : List Def)

/-- List indexing as the Go code performs it on the parameter slices;
out-of-range access panics in Go (the claims only exercise slices of
the documented length), modelled by the value 0. -/
def idx (l : List ℝ) (i : ℕ) : ℝ := l.getD i 0

mutual
/-- deformations.go Apply for each variant. -/
noncomputable def Def.Apply : Def → ℝ → ℝ → ℝ → ℝ × ℝ × ℝ
  | .gaussian amplitudes sigmas centers _, x, y, z =>
      let x0 := x - idx centers 0
      let y0 := y - idx centers 1
      let z0 := z - idx centers 2
      let r2 := x0 * x0 + y0 * y0 + z0 * z0
      let dx := idx amplitudes 0 * Real.exp (-r2 / (2 * idx sigmas 0 * idx sigmas 0))
      let dy := idx amplitudes 1 * Real.exp (-r2 / (2 * idx sigmas 1 * idx sigmas 1))
      let dz := idx amplitudes 2 * Real.exp (-r2 / (2 * idx sigmas 2 * idx sigmas 2))
      (x + dx, y + dy, z + dz)
  | .affine m _, x, y, z =>
      (m.m00 * x + m.m01 * y + m.m02 * z,
       m.m10 * x + m.m11 * y + m.m12 * z,
       m.m20 * x + m.m21 * y + m.m22 * z)
  | .linear strains _, x, y, z =>
      (x + idx strains 0 * x + idx strains 5 * y + idx strains 4 * z,
       y + idx strains 5 * x + idx strains 1 * y + idx strains 3 * z,
       z + idx strains 4 * x + idx strains 3 * y + idx strains 2 * z)
  | .rigid displacements _, x, y, z =>
      (x + idx displacements 0, y + idx displacements 1, z + idx displacements 2)
  | .sigmoid amplitude center lengthscale direction _, x, y, z =>
      if direction = "x" then (x + amplitude / (1 + Real.exp (-(x - center) / lengthscale)), y, z)
      else if direction = "y" then (x, y + amplitude / (1 + Real.exp (-(y - center) / lengthscale)), z)
      else if direction = "z" then (x, y, z + amplitude / (1 + Real.exp (-(z - center) / lengthscale)))
      else (0, 0, 0)
  | .composed deformations, x, y, z => applyChain deformations x y z
termination_by d => sizeOf d

/-- ComposedDeformation.Apply: thread the point through the children in
order. -/
noncomputable def applyChain : List Def → ℝ → ℝ → ℝ → ℝ × ℝ × ℝ
  | [], x, y, z => (x, y, z)
  | d :: rest, x, y, z =>
      match d.Apply x y z with
      | (x, y, z) => applyChain rest x y z
termination_by l => sizeOf l
end

/-- A generic descriptor value: the result of unmarshalling JSON/YAML
into map[string]interface{} (numbers are float64 from JSON, and may be
int from YAML; vectors become lists). -/
inductive Val where
  | num (r : ℝ)
  | int (n : ℤ)
  | str (s : String)
  | bool (b : Bool)
  | list (l : List Val)
  | map (entries : List (String × Val))

/-- A descriptor document: the entries of a map[string]interface{}. -/
abbrev Doc := List (String × Val)

/-- Build one map entry. -/
def kv (k : String) (v : Val) : String × Val := (k, v)

/-- Go map lookup data[key]: the value when the key is present, none
otherwise (Go returns a nil interface value). -/
def getVal : Doc → String → Option Val
  | [], _ => none
  | (k, v) :: rest, key => if k = key then some v else getVal rest key

/-- Outcome of a failing Go load path: either an error value returned to
the caller, or a runtime panic from a single-value type assertion or an
out-of-range slice index. -/
inductive GoErr where
  | returned (msg : String)
  | panicked (msg : String)

/-- objects.go ToFloat64 / deformations.go toFloat64: accept int or
float64, reject anything else (including a missing key). -/
def ToFloat64 : Option Val → Except GoErr ℝ
  | some (.int n) => .ok (n : ℝ)
  | some (.num r) => .ok r
  | _ => .error (.returned "data is not a float64")

/-- Two-valued Go type assertion v.(float64): succeeds only on float64. -/
def asFloat : Option Val → Option ℝ
  | some (.num r) => some r
  | _ => none

/-- Two-valued Go type assertion v.(int). -/
def asInt : Option Val → Option ℤ
  | some (.int n) => some n
  | _ => none

/-- Two-valued Go type assertion v.(string). -/
def asStr : Option Val → Option String
  | some (.str s) => some s
  | _ => none

/-- Write component i of a Vec3 (component 2 stands for any index
reaching the z slot). -/
def setComp (v : Vec3) (i : ℕ) (r : ℝ) : Vec3 :=
  if i = 0 then { v with x := r } else if i = 1 then { v with y := r } else { v with z := r }

/-- Loop of objects.go ToVec: entries that are int or float64 are
written into the vector (an index beyond 2 panics in Go); entries of
any other type are silently skipped. -/
def toVecLoop : List Val → ℕ → Vec3 → Except GoErr Vec3
  | [], _, v => .ok v
  | .int n :: rest, i, v =>
      if i ≥ 3 then .error (.panicked "index out of range")
      else toVecLoop rest (i + 1) (setComp v i (n : ℝ))
  | .num r :: rest, i, v =>
      if i ≥ 3 then .error (.panicked "index out of range")
      else toVecLoop rest (i + 1) (setComp v i r)
  | _ :: rest, i, v => toVecLoop rest (i + 1) v

/-- objects.go ToVec applied to a fresh zero vector (all call sites pass
the zero-valued field of a freshly created struct). -/
def ToVec (l : List Val) : Except GoErr Vec3 := toVecLoop l 0 ⟨0, 0, 0⟩

/-- The center loops of Sphere.FromMap and Cube.FromMap in
objects.go: each entry goes through the single-value assertion
val.(float64), which panics on any other type; an index beyond 2
panics. -/
def centerLoopStrict : List Val → ℕ → Vec3 → Except GoErr Vec3
  | [], _, v => .ok v
  | .num r :: rest, i, v =>
      if i ≥ 3 then .error (.panicked "index out of range")
      else centerLoopStrict rest (i + 1) (setComp v i r)
  | _ :: _, _, _ => .error (.panicked "interface conversion")

/-- The center loop of Gyroid.FromMap (src/unnamed/part_005): entries go
through ToFloat64 and a failure is returned as an error. -/
def centerLoopChecked : List Val → ℕ → Vec3 → Except GoErr Vec3
  | [], _, v => .ok v
  | w :: rest, i, v =>
      match ToFloat64 (some w) with
      | .error _ => .error (.returned "center is not a float64")
      | .ok r =>
          if i ≥ 3 then .error (.panicked "index out of range")
          else centerLoopChecked rest (i + 1) (setComp v i r)

/-- Strict float64 list extraction: the element loops of the gaussian,
linear and rigid deformation FromMap functions assert each element with
s.(float64), panicking on any other type. -/
def floatListStrict : List Val → Except GoErr (List ℝ)
  | [] => .ok []
  | .num r :: rest =>
      match floatListStrict rest with
      | .error e => .error e
      | .ok l => .ok (r :: l)
  | _ :: _ => .error (.panicked "interface conversion")

/-- Axis-aligned bounds (the six min/max float fields shared by
UnitCell and TessellatedObjColl). -/
structure Bounds where
  xmin : ℝ
  xmax : ℝ
  ymin : ℝ
  ymax : ℝ
  zmin : ℝ
  zmax : ℝ

/-- The six bound fields of UnitCell.FromMap and
TessellatedObjColl.FromMap are read identically (ToFloat64 with a
per-field error); factored here verbatim. -/
def boundsFromMap (data : Doc) : Except GoErr Bounds :=
  match ToFloat64 (getVal data "xmin") with
  | .error _ => .error (.returned "xmin is not a float64")
  | .ok xmin =>
  match ToFloat64 (getVal data "xmax") with
  | .error _ => .error (.returned "xmax is not a float64")
  | .ok xmax =>
  match ToFloat64 (getVal data "ymin") with
  | .error _ => .error (.returned "ymin is not a float64")
  | .ok ymin =>
  match ToFloat64 (getVal data "ymax") with
  | .error _ => .error (.returned "ymax is not a float64")
  | .ok ymax =>
  match ToFloat64 (getVal data "zmin") with
  | .error _ => .error (.returned "zmin is not a float64")
  | .ok zmin =>
  match ToFloat64 (getVal data "zmax") with
  | .error _ => .error (.returned "zmax is not a float64")
  | .ok zmax => .ok ⟨xmin, xmax, ymin, ymax, zmin, zmax⟩

/-- The object variants of the objects package, as a closed tree.  The
derived caches of the Go structs (Cube.Box and Parallelepiped.mat,
recomputed inside FromMap and never serialized) are not stored.  The
UnitCell struct held by TessellatedObjColl is flattened into the
tessellatedObjColl constructor (its collection children, its greedy
flag, and its bounds). -/
inductive Obj where
  | sphere (Center : Vec3) (Radius Rho : ℝ)
  | cube (Center : Vec3) (Side Rho : ℝ)
  | box (Center Sides : Vec3) (Rho : ℝ)
  | cylinder (P0 P1 : Vec3) (Radius Rho : ℝ)
  | parallelepiped (Origin V0 V1 V2 : Vec3) (Rho : ℝ)
  | gyroid (Center : Vec3) (Scale Thickness Rho : ℝ)
  | voxelGrid (Rho : List ℝ) (NX NY NZ : ℤ) (Path : String)
  | objectCollection (Objects : List Obj) (GreedyDensEval : Bool)
  | tessellatedObjColl (ucObjects : List Obj) (ucGreedy : Bool) (ucBounds : Bounds) (bounds : Bounds)

/-- objects.go Sphere.FromMap. -/
def sphereFromMap (data : Doc) : Except GoErr Obj :=
  match getVal data "center" with
  | some (.list slice) =>
      match centerLoopStrict slice 0 ⟨0, 0, 0⟩ with
      | .error e => .error e
      | .ok c =>
          match asFloat (getVal data "radius") with
          | none => .error (.returned "radius is not a float64")
          | some radius =>
              match asFloat (getVal data "rho") with
              | none => .error (.returned "rho is not a float64")
              | some rho => .ok (.sphere c radius rho)
  | _ => .error (.returned "center is not a Vec3")

/-- objects.go Cube.FromMap (the derived Box cache is recomputed from
center, side and rho at this point in the source and not stored here). -/
def cubeFromMap (data : Doc) : Except GoErr Obj :=
  match getVal data "center" with
  | some (.list slice) =>
      match centerLoopStrict slice 0 ⟨0, 0, 0⟩ with
      | .error e => .error e
      | .ok c =>
          match asFloat (getVal data "side") with
          | none => .error (.returned "side is not a float64")
          | some side =>
              match asFloat (getVal data "rho") with
              | none => .error (.returned "rho is not a float64")
              | some rho => .ok (.cube c side rho)
  | _ => .error (.returned "center is not a Vec3")

/-- objects.go Box.FromMap. -/
def boxFromMap (data : Doc) : Except GoErr Obj :=
  match getVal data "center" with
  | some (.list slice) =>
      match ToVec slice with
      | .error e => .error e
      | .ok c =>
          match getVal data "sides" with
          | some (.list slice2) =>
              match ToVec slice2 with
              | .error e => .error e
              | .ok sides =>
                  match ToFloat64 (getVal data "rho") with
                  | .error _ => .error (.returned "rho is not a float64")
                  | .ok rho => .ok (.box c sides rho)
          | _ => .error (.returned "sides is not a Vec3")
  | _ => .error (.returned "center is not a Vec3")

/-- objects.go Parallelepiped.FromMap (the derived inverse matrix cache
is recomputed from v0, v1, v2 at this point in the source and not
stored here). -/
def parallelepipedFromMap (data : Doc) : Except GoErr Obj :=
  match getVal data "origin" with
  | some (.list l0) =>
      match ToVec l0 with
      | .error e => .error e
      | .ok origin =>
      match getVal data "v0" with
      | some (.list l1) =>
          match ToVec l1 with
          | .error e => .error e
          | .ok v0 =>
          match getVal data "v1" with
          | some (.list l2) =>
              match ToVec l2 with
              | .error e => .error e
              | .ok v1 =>
              match getVal data "v2" with
              | some (.list l3) =>
                  match ToVec l3 with
                  | .error e => .error e
                  | .ok v2 =>
                      match ToFloat64 (getVal data "rho") with
                      | .error _ => .error (.returned "rho is not a float64")
                      | .ok rho => .ok (.parallelepiped origin v0 v1 v2 rho)
              | _ => .error (.returned "v2 is not a Vec3")
          | _ => .error (.returned "v1 is not a Vec3")
      | _ => .error (.returned "v0 is not a Vec3")
  | _ => .error (.returned "origin is not a Vec3")

/-- objects.go Cylinder.FromMap: p0, p1 via ToVec, radius as a strict
float64, and rho via ToFloat64 with the default value 1.0 when the rho
key is absent. -/
def cylinderFromMap (data : Doc) : Except GoErr Obj :=
  match getVal data "p0" with
  | some (.list l0) =>
      match ToVec l0 with
      | .error e => .error e
      | .ok p0 =>
      match getVal data "p1" with
      | some (.list l1) =>
          match ToVec l1 with
          | .error e => .error e
          | .ok p1 =>
              match asFloat (getVal data "radius") with
              | none => .error (.returned "radius is not a float64")
              | some radius =>
                  match getVal data "rho" with
                  | none => .ok (.cylinder p0 p1 radius 1)
                  | some v =>
                      match ToFloat64 (some v) with
                      | .error _ => .error (.returned "rho is not a float64")
                      | .ok rho => .ok (.cylinder p0 p1 radius rho)
      | _ => .error (.returned "p0 is not a Vec3")
  | _ => .error (.returned "p0 is not a Vec3")

/-- Gyroid.FromMap from src/unnamed/part_005.  The mgl64.Vec3 and
[]float64 branches for the center can only occur for in-memory maps,
never for a generic unmarshalled descriptor document, and are omitted. -/
def gyroidFromMap (data : Doc) : Except GoErr Obj :=
  match getVal data "center" with
  | some (.list slice) =>
      match centerLoopChecked slice 0 ⟨0, 0, 0⟩ with
      | .error e => .error e
      | .ok c =>
          match asFloat (getVal data "scale") with
          | none => .error (.returned "scale is not a float64")
          | some scale =>
          match asFloat (getVal data "thickness") with
          | none => .error (.returned "thickness is not a float64")
          | some thickness =>
          match asFloat (getVal data "rho") with
          | none => .error (.returned "rho is not a float64")
          | some rho => .ok (.gyroid c scale thickness rho)
  | _ => .error (.returned "center is not a Vec3")

/-- Go strings.LastIndex slicing path[i+1:]: the text after the last
dot (the whole string when there is no dot). -/
def extensionAfterLastDot (s : String) : String :=
  (s.splitOn ".").getLastD ""

/-- VoxelGrid.FromMap from src/unnamed/part_005.  Reading and decoding
the raw sample file is I/O outside the pure model, so the loader
(VoxelGridFromRaw) is passed as a parameter; every theorem below that
touches this code quantifies over the loader.  When the path key is not
a string the Go code falls into the in-memory branch, which reads nx,
ny, nz and then always fails on the assertion data[path].(string). -/
def voxelGridFromMap (loadRaw : String → ℤ × ℤ × ℤ → String → Except GoErr (List ℝ))
    (data : Doc) : Except GoErr Obj :=
  match getVal data "path" with
  | some (.str path) =>
      if (extensionAfterLastDot path).toLower ≠ "raw" then
        .error (.returned "only raw files are supported")
      else
        match getVal data "resolution" with
        | some (.list res_data) =>
            match res_data with
            | [.int r0, .int r1, .int r2] =>
                let dtype := match asStr (getVal data "dtype") with
                  | some s => s
                  | none => "uint8"
                match loadRaw path (r0, r1, r2) dtype with
                | .error e => .error e
                | .ok rho => .ok (.voxelGrid rho r0 r1 r2 path)
            | _ =>
                if res_data.length ≠ 3 then
                  .error (.returned "resolution must be a list of 3 integers")
                else .error (.returned "resolution is not an integer")
        | _ => .error (.returned "resolution must be provided for raw files")
  | _ =>
      match asInt (getVal data "nx") with
      | none => .error (.returned "nx is not an int")
      | some _ =>
      match asInt (getVal data "ny") with
      | none => .error (.returned "ny is not an int")
      | some _ =>
      match asInt (getVal data "nz") with
      | none => .error (.returned "nz is not an int")
      | some _ => .error (.returned "path is not a string")

theorem getVal_sizeOf {m : Doc} {key : String} {v : Val} (h : getVal m key = some v) :
    sizeOf v < sizeOf m := by
  induction m with
  | nil => simp [getVal] at h
  | cons p rest ih =>
    obtain ⟨k, w⟩ := p
    simp only [getVal] at h
    split at h
    · cases h; simp; omega
    · have := ih h; simp; omega

mutual
/-- objects.go ObjectCollection.FromMap, returning the children and the
greedy flag: the flag is taken from greedy_dens_eval when present as a
bool (the zero value false otherwise), then the objects list is decoded
child by child. -/
def collFromMapCore (data : Doc) : Except GoErr (List Obj × Bool) :=
  let greedy := match getVal data "greedy_dens_eval" with
    | some (.bool b) => b
    | _ => false
  match hobj : getVal data "objects" with
  | some (.list objs) =>
      match collChildren objs with
      | .error e => .error e
      | .ok children => .ok (children, greedy)
  | _ => .error (.returned "objects is not a list")
termination_by sizeOf data
decreasing_by
  simp_wf
  have := getVal_sizeOf hobj
  simp at this
  omega

/-- The per-child loop of ObjectCollection.FromMap: each element goes
through the single-value assertion object_data.(map[string]interface{})
(panicking on a non-map element) and then through the type switch. -/
def collChildren : List Val → Except GoErr (List Obj)
  | [] => .ok []
  | v :: rest =>
      match childFromMap v with
      | .error e => .error e
      | .ok o =>
          match collChildren rest with
          | .error e => .error e
          | .ok os => .ok (o :: os)
termination_by l => sizeOf l
decreasing_by
  all_goals simp_wf
  all_goals omega

/-- The type switch on one child of ObjectCollection.FromMap in
objects.go: the supported child types are sphere, cube, box, cylinder,
parallelepiped and tessellated_obj_coll; any other type value is an
error. -/
def childFromMap (v : Val) : Except GoErr Obj :=
  match v with
  | .map entries =>
      match getVal entries "type" with
      | some (.str t) =>
          if t = "sphere" then sphereFromMap entries
          else if t = "cube" then cubeFromMap entries
          else if t = "box" then boxFromMap entries
          else if t = "cylinder" then cylinderFromMap entries
          else if t = "parallelepiped" then parallelepipedFromMap entries
          else if t = "tessellated_obj_coll" then tessFromMap entries
          else .error (.returned "unknown object type")
      | _ => .error (.returned "unknown object type")
  | _ => .error (.panicked "interface conversion")
termination_by sizeOf v
decreasing_by
  all_goals simp_wf
  all_goals omega

/-- objects.go UnitCell.FromMap: decode the embedded collection from the
objects key, then force GreedyDensEval to true, then read the six
bounds. -/
def unitCellFromMap (data : Doc) : Except GoErr (List Obj × Bool × Bounds) :=
  match hobj : getVal data "objects" with
  | some (.map collData) =>
      match collFromMapCore collData with
      | .error e => .error e
      | .ok (children, _) =>
          match boundsFromMap data with
          | .error e => .error e
          | .ok b => .ok (children, true, b)
  | _ => .error (.returned "objects is not a map")
termination_by sizeOf data
decreasing_by
  simp_wf
  have := getVal_sizeOf hobj
  simp at this
  omega

/-- objects.go TessellatedObjColl.FromMap: decode the unit cell from the
uc key, then read the six outer bounds. -/
def tessFromMap (data : Doc) : Except GoErr Obj :=
  match huc : getVal data "uc" with
  | some (.map ucData) =>
      match unitCellFromMap ucData with
      | .error e => .error e
      | .ok (ucObjs, ucGreedy, ucB) =>
          match boundsFromMap data with
          | .error e => .error e
          | .ok b => .ok (.tessellatedObjColl ucObjs ucGreedy ucB b)
  | _ => .error (.returned "uc is not a map")
termination_by sizeOf data
decreasing_by
  simp_wf
  have := getVal_sizeOf huc
  simp at this
  omega
end

/-- objects.go ObjectCollection.FromMap as an Object constructor. -/
def objectCollectionFromMap (data : Doc) : Except GoErr Obj :=
  match collFromMapCore data with
  | .error e => .error e
  | .ok (children, greedy) => .ok (.objectCollection children greedy)

/-- NewObject from src/unnamed/part_005 (the deserialization entry point
reached through ObjectFactory.Create in main.go load_object): a single
switch on the type discriminant; an unknown or missing type returns an
error before any FromMap runs.  The per-variant FromMap implementations
are those of objects/objects.go modelled above (src holds two revisions
of the objects package; the claims cite objects.go for the variant
loaders and part_005 for this switch), with gyroid and voxel_grid
present only in part_005. -/
def NewObject (loadRaw : String → ℤ × ℤ × ℤ → String → Except GoErr (List ℝ))
    (data : Doc) : Except GoErr Obj :=
  match getVal data "type" with
  | some (.str t) =>
      if t = "sphere" then sphereFromMap data
      else if t = "cube" then cubeFromMap data
      else if t = "box" then boxFromMap data
      else if t = "cylinder" then cylinderFromMap data
      else if t = "parallelepiped" then parallelepipedFromMap data
      else if t = "gyroid" then gyroidFromMap data
      else if t = "object_collection" then objectCollectionFromMap data
      else if t = "tessellated_obj_coll" then tessFromMap data
      else if t = "voxel_grid" then voxelGridFromMap loadRaw data
      else .error (.returned "unknown object type")
  | _ => .error (.returned "unknown object type")

/-- ObjectFactory.Create simply delegates to NewObject. -/
def ObjectFactoryCreate (loadRaw : String → ℤ × ℤ × ℤ → String → Except GoErr (List ℝ))
    (data : Doc) : Except GoErr Obj :=
  NewObject loadRaw data

/-- Serialization of an mgl64.Vec3 through the generic document (a
JSON/YAML array of three numbers). -/
def vecVal (v : Vec3) : Val := .list [.num v.x, .num v.y, .num v.z]

mutual
/-- The ToMap methods of the objects package.  Note that
ObjectCollection.ToMap writes only the type and the children: the
GreedyDensEval flag is not serialized.  UnitCell.ToMap is inlined in the
tessellated case exactly as the source composes it. -/
def Obj.toMap : Obj → Doc
  | .sphere c radius rho =>
      [kv "type" (.str "sphere"), kv "center" (vecVal c), kv "radius" (.num radius),
       kv "rho" (.num rho)]
  | .cube c side rho =>
      [kv "type" (.str "cube"), kv "center" (vecVal c), kv "side" (.num side),
       kv "rho" (.num rho)]
  | .box c sides rho =>
      [kv "type" (.str "box"), kv "center" (vecVal c), kv "sides" (vecVal sides),
       kv "rho" (.num rho)]
  | .cylinder p0 p1 radius rho =>
      [kv "type" (.str "cylinder"), kv "p0" (vecVal p0), kv "p1" (vecVal p1),
       kv "radius" (.num radius), kv "rho" (.num rho)]
  | .parallelepiped o v0 v1 v2 rho =>
      [kv "type" (.str "parallelepiped"), kv "origin" (vecVal o), kv "v0" (vecVal v0),
       kv "v1" (vecVal v1), kv "v2" (vecVal v2), kv "rho" (.num rho)]
  | .gyroid c scale thickness rho =>
      [kv "type" (.str "gyroid"), kv "center" (vecVal c), kv "scale" (.num scale),
       kv "thickness" (.num thickness), kv "rho" (.num rho)]
  | .voxelGrid _ nx ny nz path =>
      [kv "type" (.str "voxel_grid"), kv "nx" (.int nx), kv "ny" (.int ny), kv "nz" (.int nz),
       kv "dtype" (.str "float64"), kv "path" (.str path)]
  | .objectCollection objs _ =>
      [kv "type" (.str "object_collection"), kv "objects" (.list (toMapList objs))]
  | .tessellatedObjColl ucObjs _ ucB b =>
      [kv "type" (.str "tessellated_obj_coll"),
       kv "uc" (.map
         [kv "type" (.str "unit_cell"),
          kv "objects" (.map [kv "type" (.str "object_collection"),
                              kv "objects" (.list (toMapList ucObjs))]),
          kv "xmin" (.num ucB.xmin), kv "xmax" (.num ucB.xmax),
          kv "ymin" (.num ucB.ymin), kv "ymax" (.num ucB.ymax),
          kv "zmin" (.num ucB.zmin), kv "zmax" (.num ucB.zmax)]),
       kv "xmin" (.num b.xmin), kv "xmax" (.num b.xmax),
       kv "ymin" (.num b.ymin), kv "ymax" (.num b.ymax),
       kv "zmin" (.num b.zmin), kv "zmax" (.num b.zmax)]
termination_by o => sizeOf o

/-- The loop of ObjectCollection.ToMap over the children. -/
def toMapList : List Obj → List Val
  | [] => []
  | o :: os => .map o.toMap :: toMapList os
termination_by l => sizeOf l
end

/-- deformations.go GaussianDeformation.FromMap: amplitudes is
ok-checked; the sigmas and centers assertions are single-value (the ok
flag tested after them is the stale amplitudes flag), so a bad sigmas
or centers value panics; the trailing type read is a single-value
string assertion. -/
def gaussianFromMap (data : Doc) : Except GoErr Def :=
  match getVal data "amplitudes" with
  | some (.list amplitudes) =>
      match floatListStrict amplitudes with
      | .error e => .error e
      | .ok amps =>
      match getVal data "sigmas" with
      | some (.list sigmas) =>
          match floatListStrict sigmas with
          | .error e => .error e
          | .ok sigs =>
          match getVal data "centers" with
          | some (.list centers) =>
              match floatListStrict centers with
              | .error e => .error e
              | .ok cents =>
                  match asStr (getVal data "type") with
                  | some ty => .ok (.gaussian amps sigs cents ty)
                  | none => .error (.panicked "interface conversion")
          | _ => .error (.panicked "interface conversion")
      | _ => .error (.panicked "interface conversion")
  | _ => .error (.returned "amplitudes must be a list")

/-- One row of AffineDeformation.FromMap: must be a list of exactly 3
elements, each a strict float64 (single-value assertion). -/
def affineRow (v : Val) : Except GoErr (ℝ × ℝ × ℝ) :=
  match v with
  | .list [a, b, c] =>
      match a, b, c with
      | .num ra, .num rb, .num rc => .ok (ra, rb, rc)
      | _, _, _ => .error (.panicked "interface conversion")
  | .list _ => .error (.returned "matrix row must have 3 elements")
  | _ => .error (.returned "matrix row must be a list")

/-- deformations.go AffineDeformation.FromMap. -/
def affineFromMap (data : Doc) : Except GoErr Def :=
  match getVal data "matrix" with
  | some (.list [r0, r1, r2]) =>
      match affineRow r0 with
      | .error e => .error e
      | .ok (a00, a01, a02) =>
      match affineRow r1 with
      | .error e => .error e
      | .ok (a10, a11, a12) =>
      match affineRow r2 with
      | .error e => .error e
      | .ok (a20, a21, a22) =>
          match asStr (getVal data "type") with
          | some ty => .ok (.affine ⟨a00, a01, a02, a10, a11, a12, a20, a21, a22⟩ ty)
          | none => .error (.panicked "interface conversion")
  | some (.list _) => .error (.returned "matrix must have 3 rows")
  | _ => .error (.returned "matrix must be a list")

/-- deformations.go LinearDeformation.FromMap. -/
def linearFromMap (data : Doc) : Except GoErr Def :=
  match getVal data "strains" with
  | some (.list strains) =>
      match floatListStrict strains with
      | .error e => .error e
      | .ok l =>
          match asStr (getVal data "type") with
          | some ty => .ok (.linear l ty)
          | none => .error (.panicked "interface conversion")
  | _ => .error (.returned "strains must be a list")

/-- deformations.go RigidDeformation.FromMap. -/
def rigidFromMap (data : Doc) : Except GoErr Def :=
  match getVal data "displacements" with
  | some (.list displacements) =>
      match floatListStrict displacements with
      | .error e => .error e
      | .ok l =>
          match asStr (getVal data "type") with
          | some ty => .ok (.rigid l ty)
          | none => .error (.panicked "interface conversion")
  | _ => .error (.returned "displacements must be a list")

/-- deformations.go SigmoidDeformation.FromMap: the three scalars go
through toFloat64 (int or float64), direction and type are ok-checked
strings. -/
def sigmoidFromMap (data : Doc) : Except GoErr Def :=
  match ToFloat64 (getVal data "amplitude") with
  | .error _ => .error (.returned "amplitude must be a float")
  | .ok amplitude =>
  match ToFloat64 (getVal data "center") with
  | .error _ => .error (.returned "center must be a float")
  | .ok center =>
  match ToFloat64 (getVal data "lengthscale") with
  | .error _ => .error (.returned "lengthscale must be a float")
  | .ok lengthscale =>
  match asStr (getVal data "direction") with
  | none => .error (.returned "direction must be a string")
  | some direction =>
      match asStr (getVal data "type") with
      | none => .error (.returned "type must be a string")
      | some ty => .ok (.sigmoid amplitude center lengthscale direction ty)

mutual
/-- deformations.go NewDeformation (also DeformationFactory.Create): a
nil type is rejected first, then a single switch on the type string;
unknown discriminants are an error. -/
def NewDeformation (data : Doc) : Except GoErr Def :=
  match getVal data "type" with
  | none => .error (.returned "deformation type is nil")
  | some (.str t) =>
      if t = "gaussian" then gaussianFromMap data
      else if t = "linear" then linearFromMap data
      else if t = "rigid" then rigidFromMap data
      else if t = "sigmoid" then sigmoidFromMap data
      else if t = "composed" then composedFromMap data
      else if t = "affine" then affineFromMap data
      else .error (.returned "unknown deformation type")
  | _ => .error (.returned "unknown deformation type")
termination_by (sizeOf data, 1)
decreasing_by
  all_goals simp_wf
  all_goals omega

/-- deformations.go ComposedDeformation.FromMap. -/
def composedFromMap (data : Doc) : Except GoErr Def :=
  match hds : getVal data "deformations" with
  | some (.list ds) =>
      match defChildren ds with
      | .error e => .error e
      | .ok children => .ok (.composed children)
  | _ => .error (.returned "deformations must be a list")
termination_by (sizeOf data, 0)
decreasing_by
  simp_wf
  have := getVal_sizeOf hds
  simp at this
  omega

/-- The child loop of ComposedDeformation.FromMap: each element goes
through the single-value assertion d.(map[string]interface{}) and then
through NewDeformation. -/
def defChildren : List Val → Except GoErr (List Def)
  | [] => .ok []
  | v :: rest =>
      match v with
      | .map entries =>
          match NewDeformation entries with
          | .error e => .error e
          | .ok d =>
              match defChildren rest with
              | .error e => .error e
              | .ok l => .ok (d :: l)
      | _ => .error (.panicked "interface conversion")
termination_by l => (sizeOf l, 0)
decreasing_by
  all_goals simp_wf
  all_goals omega
end

/-- List of reals as a descriptor value. -/
def numList (l : List ℝ) : Val := .list (l.map Val.num)

mutual
/-- The ToMap methods of the deformations package.  Note that
ComposedDeformation.ToMap writes only the deformations list and no type
discriminant. -/
def Def.toMap : Def → Doc
  | .gaussian a s c ty =>
      [kv "amplitudes" (numList a), kv "sigmas" (numList s), kv "centers" (numList c),
       kv "type" (.str ty)]
  | .affine m ty =>
      [kv "matrix" (.list
        [.list [.num m.m00, .num m.m01, .num m.m02],
         .list [.num m.m10, .num m.m11, .num m.m12],
         .list [.num m.m20, .num m.m21, .num m.m22]]),
       kv "type" (.str ty)]
  | .linear strains ty => [kv "strains" (numList strains), kv "type" (.str ty)]
  | .rigid d ty => [kv "displacements" (numList d), kv "type" (.str ty)]
  | .sigmoid a c l dir ty =>
      [kv "amplitude" (.num a), kv "center" (.num c), kv "lengthscale" (.num l),
       kv "direction" (.str dir), kv "type" (.str ty)]
  | .composed ds => [kv "deformations" (.list (defToMapList ds))]
termination_by d => sizeOf d

/-- The loop of ComposedDeformation.ToMap over the children. -/
def defToMapList : List Def → List Val
  | [] => []
  | d :: ds => .map d.toMap :: defToMapList ds
termination_by l => sizeOf l
end

/-- The object type names accepted by the NewObject switch. -/
def supportedObjectTypes : List String :=
  ["sphere", "cube", "box", "cylinder", "parallelepiped", "gyroid", "object_collection",
   "tessellated_obj_coll", "voxel_grid"]

/-- The child type names accepted by the ObjectCollection.FromMap switch
in objects.go. -/
def supportedChildTypes : List String :=
  ["sphere", "cube", "box", "cylinder", "parallelepiped", "tessellated_obj_coll"]

/-- The deformation type names accepted by the NewDeformation switch. -/
def supportedDeformationTypes : List String :=
  ["gaussian", "linear", "rigid", "sigmoid", "composed", "affine"]

/-- Child kinds accepted by the ObjectCollection.FromMap switch of
objects.go (an object_collection child, a gyroid child or a voxel_grid
child hits the default branch there). -/
def okChildKind : Obj → Bool
  | .objectCollection _ _ => false
  | .gyroid _ _ _ _ => false
  | .voxelGrid _ _ _ _ _ => false
  | _ => true

mutual
/-- Well-formedness for the serialization round trip: the value uses
only the variants whose descriptors objects.go can read back (gyroid
and voxel_grid exist only in the part_005 revision, and a collection
child may not itself be an object_collection). -/
def wfObj : Obj → Bool
  | .gyroid _ _ _ _ => false
  | .voxelGrid _ _ _ _ _ => false
  | .objectCollection objs _ => wfChildren objs
  | .tessellatedObjColl ucObjs _ _ _ => wfChildren ucObjs
  | _ => true
termination_by o => sizeOf o

/-- Well-formedness of a child list. -/
def wfChildren : List Obj → Bool
  | [] => true
  | o :: os => okChildKind o && wfObj o && wfChildren os
termination_by l => sizeOf l
end

mutual
/-- What loading reproduces of a serialized tree: every field except
the greedy flags, which are not serialized; a plain collection reloads
with the zero value false, and the collection inside a unit cell is
forced to true by UnitCell.FromMap. -/
def loadNormal : Obj → Obj
  | .objectCollection objs _ => .objectCollection (loadNormalList objs) false
  | .tessellatedObjColl ucObjs _ ucB b => .tessellatedObjColl (loadNormalList ucObjs) true ucB b
  | o => o
termination_by o => sizeOf o

/-- loadNormal over a child list. -/
def loadNormalList : List Obj → List Obj
  | [] => []
  | o :: os => loadNormal o :: loadNormalList os
termination_by l => sizeOf l
end

/-- The FromMap of the own variant of an object (what deserializing the
descriptor of x dispatches to). -/
def Obj.fromMapSelf : Obj → Doc → Except GoErr Obj
  | .sphere _ _ _, d => sphereFromMap d
  | .cube _ _ _, d => cubeFromMap d
  | .box _ _ _, d => boxFromMap d
  | .cylinder _ _ _ _, d => cylinderFromMap d
  | .parallelepiped _ _ _ _ _, d => parallelepipedFromMap d
  | .gyroid _ _ _ _, d => gyroidFromMap d
  | .voxelGrid _ _ _ _ _, d => voxelGridFromMap (fun _ _ _ => .error (.returned "io")) d
  | .objectCollection _ _, d => objectCollectionFromMap d
  | .tessellatedObjColl _ _ _ _, d => tessFromMap d

/-- The FromMap of the own variant of a deformation. -/
def Def.fromMapSelf : Def → Doc → Except GoErr Def
  | .gaussian _ _ _ _, d => gaussianFromMap d
  | .affine _ _, d => affineFromMap d
  | .linear _ _, d => linearFromMap d
  | .rigid _ _, d => rigidFromMap d
  | .sigmoid _ _ _ _ _, d => sigmoidFromMap d
  | .composed _, d => composedFromMap d

/-- The discriminant that NewDeformation expects for each deformation
variant (composed carries no Type field in the Go struct). -/
def Def.variantName : Def → Option String
  | .gaussian _ _ _ _ => some "gaussian"
  | .affine _ _ => some "affine"
  | .linear _ _ => some "linear"
  | .rigid _ _ => some "rigid"
  | .sigmoid _ _ _ _ _ => some "sigmoid"
  | .composed _ => none

/-- A deformation child that can survive the NewDeformation dispatch of
a composed round trip: it carries a Type string equal to its variant
discriminant and is not itself composed (a composed child serializes
without a type key and cannot be read back). -/
def childTyMatched : Def → Bool
  | .gaussian _ _ _ ty => ty == "gaussian"
  | .affine _ ty => ty == "affine"
  | .linear _ ty => ty == "linear"
  | .rigid _ ty => ty == "rigid"
  | .sigmoid _ _ _ _ ty => ty == "sigmoid"
  | .composed _ => false

/-- Well-formedness of a deformation for the round trip: the children
of a composed chain must satisfy childTyMatched. -/
def wfDef : Def → Bool
  | .composed ds => ds.all childTyMatched
  | _ => true

theorem riemannLoop_eq_sum (f : ℝ → ℝ) (ds : ℝ) :
    ∀ (n : ℕ) (s : ℝ), riemannLoop f ds n s = ∑ i ∈ Finset.range n, f (s + i * ds) * ds := by
  intro n
  induction n with
  | zero => intro s; simp [riemannLoop]
  | succ n ih =>
    intro s
    rw [riemannLoop, ih (s + ds), Finset.sum_range_succ']
    have h1 : ∀ i ∈ Finset.range n, f (s + ds + i * ds) * ds = f (s + (↑(i + 1) : ℝ) * ds) * ds := by
      intro i _
      congr 2
      push_cast
      ring
    rw [Finset.sum_congr rfl h1]
    norm_num
    ring

/-- C1: the simple integrator returns exp(-T) for
T = flat_field + (left-Riemann sum of DensityField(Deform(p)) * multiplier);
the flat-field bias enters the attenuation exponent exactly once as an
additive constant, not as part of the integrand. -/
theorem C1_simple_integrator_flat_field_additive (g : RenderState) (origin direction : Vec3)
    (ds smin smax : ℝ) :
    integrate_along_ray g origin direction ds smin smax =
      Real.exp (-(g.flat_field + ∑ i ∈ Finset.range (rayStepCount smin smax ds),
        density g (origin.x + direction.Normalize.x * (smin + i * ds))
          (origin.y + direction.Normalize.y * (smin + i * ds))
          (origin.z + direction.Normalize.z * (smin + i * ds)) * ds)) := by
  unfold integrate_along_ray
  dsimp only
  rw [riemannLoop_eq_sum]

/-- The configuration of the C1 counterexample: a zero density field,
multiplier 1 and flat field 1. -/
def flatCfg : RenderState := ⟨fun _ _ _ => 0, [], 1, 1⟩

theorem flatCfg_density (x y z : ℝ) : density flatCfg x y z = 0 := by
  simp [density, deform, flatCfg]

/-- C1 counterexample: with a zero density field, flat_field = 1 and a
scan window of length 2 at ds = 1, the code returns exp(-1) while the
claimed flat-field-in-integrand quadrature returns exp(-2) = exp(-flat_field * (smax - smin)). -/
theorem C1_counterexample :
    integrate_along_ray flatCfg ⟨0, 0, 0⟩ ⟨1, 0, 0⟩ 1 0 2 = Real.exp (-1) ∧
    integrate_along_ray_specFlatInIntegrand flatCfg ⟨0, 0, 0⟩ ⟨1, 0, 0⟩ 1 0 2 = Real.exp (-2) ∧
    integrate_along_ray flatCfg ⟨0, 0, 0⟩ ⟨1, 0, 0⟩ 1 0 2 ≠
      integrate_along_ray_specFlatInIntegrand flatCfg ⟨0, 0, 0⟩ ⟨1, 0, 0⟩ 1 0 2 := by
  have hcount : rayStepCount 0 2 1 = 2 := by
    have : (⌈((2 : ℝ) - 0) / 1⌉) = 2 := by norm_num
    simp [rayStepCount, this]
  have h1 : integrate_along_ray flatCfg ⟨0, 0, 0⟩ ⟨1, 0, 0⟩ 1 0 2 = Real.exp (-1) := by
    unfold integrate_along_ray
    dsimp only
    rw [hcount]
    simp only [riemannLoop, flatCfg_density]
    norm_num [flatCfg]
  have h2 : integrate_along_ray_specFlatInIntegrand flatCfg ⟨0, 0, 0⟩ ⟨1, 0, 0⟩ 1 0 2 =
      Real.exp (-2) := by
    unfold integrate_along_ray_specFlatInIntegrand
    dsimp only
    rw [hcount]
    simp only [riemannLoop, flatCfg_density]
    norm_num [flatCfg]
  refine ⟨h1, h2, ?_⟩
  rw [h1, h2]
  intro h
  rw [Real.exp_eq_exp] at h
  norm_num at h

/-- The contribution of one coarse step of hierLoop with previous
position l, previous sample value pv, and right edge r (= l + DS). -/
noncomputable def hstep (f : ℝ → ℝ) (ds DS l pv r : ℝ) : ℝ :=
  if ¬((f r = 0) ↔ (pv = 0)) then
    riemannLoop f ds (rayStepCount (l + ds) r ds) (l + ds) + f r * ds
  else f r * DS

theorem hierLoop_succ (f : ℝ → ℝ) (ds DS : ℝ) (n : ℕ) (left prev T : ℝ) :
    hierLoop f ds DS (n + 1) left prev T =
      hierLoop f ds DS n (left + DS) (f (left + DS))
        (T + hstep f ds DS left prev (left + DS)) := by
  rw [hierLoop]
  unfold hstep
  split
  · congr 1
    ring
  · rfl

theorem hierLoop_eq_sum (f : ℝ → ℝ) (ds DS : ℝ) :
    ∀ (n : ℕ) (left prev T : ℝ),
    hierLoop f ds DS n left prev T =
      T + ∑ j ∈ Finset.range n,
        hstep f ds DS (left + (j : ℝ) * DS)
          (if j = 0 then prev else f (left + (j : ℝ) * DS))
          (left + ((j : ℝ) + 1) * DS) := by
  intro n
  induction n with
  | zero => intro left prev T; simp [hierLoop]
  | succ n ih =>
    intro left prev T
    rw [hierLoop_succ, ih, Finset.sum_range_succ']
    have h0 : hstep f ds DS (left + ((0 : ℕ) : ℝ) * DS)
        (if (0 : ℕ) = 0 then prev else f (left + ((0 : ℕ) : ℝ) * DS))
        (left + (((0 : ℕ) : ℝ) + 1) * DS) = hstep f ds DS left prev (left + DS) := by
      norm_num
    have h1 : ∀ j ∈ Finset.range n,
        hstep f ds DS (left + DS + (j : ℝ) * DS)
          (if j = 0 then f (left + DS) else f (left + DS + (j : ℝ) * DS))
          (left + DS + ((j : ℝ) + 1) * DS) =
        hstep f ds DS (left + ((j + 1 : ℕ) : ℝ) * DS)
          (if (j + 1 : ℕ) = 0 then prev else f (left + ((j + 1 : ℕ) : ℝ) * DS))
          (left + (((j + 1 : ℕ) : ℝ) + 1) * DS) := by
      intro j _
      have e1 : left + DS + (j : ℝ) * DS = left + ((j + 1 : ℕ) : ℝ) * DS := by
        push_cast; ring
      have e2 : left + DS + ((j : ℝ) + 1) * DS = left + (((j + 1 : ℕ) : ℝ) + 1) * DS := by
        push_cast; ring
      have e3 : (if j = 0 then f (left + DS) else f (left + DS + (j : ℝ) * DS)) =
          (if (j + 1 : ℕ) = 0 then prev else f (left + ((j + 1 : ℕ) : ℝ) * DS)) := by
        rcases Nat.eq_zero_or_pos j with hj | hj
        · subst hj; norm_num
        · rw [if_neg (by omega), if_neg (by omega), e1]
      rw [e3, e1, e2]
    rw [Finset.sum_congr rfl h1, h0]
    ring

theorem rayStepCount_inner (DS : ℝ) (hDS : 0 < DS) (l : ℝ) :
    rayStepCount (l + DS / 10) (l + DS) (DS / 10) = 9 := by
  unfold rayStepCount
  have h : (l + DS - (l + DS / 10)) / (DS / 10) = 9 := by
    field_simp
    ring
  have h9 : (⌈(9 : ℝ)⌉ : ℤ) = 9 := by norm_num
  rw [h, h9]
  rfl

/-- C2: the hierarchical integrator advances by coarse step DS with fine
step DS/10; on a coarse step whose right-edge sample changes positivity
relative to the previous coarse sample it re-integrates the interior of
the WHOLE bracketed interval at the fine step (the 9 interior samples
left + k * DS/10, k = 1..9) and then adds the right-edge sample value
once more with weight DS/10; on a step with no transition it adds
rho * DS. -/
theorem C2_hierarchical_step_structure (g : RenderState) (origin direction : Vec3)
    (DS smin smax : ℝ) (hDS : 0 < DS) :
    integrate_hierarchical g origin direction DS smin smax =
      Real.exp (-(g.flat_field + ∑ j ∈ Finset.range (coarseStepCount smin smax DS),
        (if ¬((density g (origin.x + direction.Normalize.x * (smin + ((j : ℝ) + 1) * DS))
                 (origin.y + direction.Normalize.y * (smin + ((j : ℝ) + 1) * DS))
                 (origin.z + direction.Normalize.z * (smin + ((j : ℝ) + 1) * DS)) = 0) ↔
              ((if j = 0 then (0 : ℝ) else
                  density g (origin.x + direction.Normalize.x * (smin + (j : ℝ) * DS))
                    (origin.y + direction.Normalize.y * (smin + (j : ℝ) * DS))
                    (origin.z + direction.Normalize.z * (smin + (j : ℝ) * DS))) = 0)) then
           riemannLoop
             (fun s => density g (origin.x + direction.Normalize.x * s)
               (origin.y + direction.Normalize.y * s) (origin.z + direction.Normalize.z * s))
             (DS / 10) 9 (smin + (j : ℝ) * DS + DS / 10) +
           density g (origin.x + direction.Normalize.x * (smin + ((j : ℝ) + 1) * DS))
             (origin.y + direction.Normalize.y * (smin + ((j : ℝ) + 1) * DS))
             (origin.z + direction.Normalize.z * (smin + ((j : ℝ) + 1) * DS)) * (DS / 10)
         else
           density g (origin.x + direction.Normalize.x * (smin + ((j : ℝ) + 1) * DS))
             (origin.y + direction.Normalize.y * (smin + ((j : ℝ) + 1) * DS))
             (origin.z + direction.Normalize.z * (smin + ((j : ℝ) + 1) * DS)) * DS))) := by
  unfold integrate_hierarchical
  dsimp only
  rw [hierLoop_eq_sum]
  congr 3
  apply Finset.sum_congr rfl
  intro j _
  unfold hstep
  have harg : smin + ((j : ℝ) + 1) * DS = smin + (j : ℝ) * DS + DS := by ring
  rw [harg, rayStepCount_inner DS hDS (smin + (j : ℝ) * DS), ← harg]

theorem unitX_Normalize : (⟨1, 0, 0⟩ : Vec3).Normalize = ⟨1, 0, 0⟩ := by
  unfold Vec3.Normalize Vec3.Len
  norm_num

theorem C2_hierarchical_step_structure_witness :
    integrate_hierarchical flatCfg ⟨0, 0, 0⟩ ⟨1, 0, 0⟩ 1 0 2 = Real.exp (-1) := by
  have hc : coarseStepCount 0 2 1 = 2 := by
    have : (⌊((2 : ℝ) - 0) / 1⌋ : ℤ) = 2 := by norm_num
    simp [coarseStepCount, this]
  have h := C2_hierarchical_step_structure flatCfg ⟨0, 0, 0⟩ ⟨1, 0, 0⟩ 1 0 2 (by norm_num)
  rw [h, hc]
  simp only [unitX_Normalize, flatCfg_density]
  norm_num [Finset.sum_range_succ, flatCfg]

/-- The configuration of the C2 counterexample: the loaded object is an
indicator density supported on x >= 0.55 (inside the right half of the
single coarse bracket [0, 1]), multiplier 1 and no flat field. -/
noncomputable def stepCfg : RenderState :=
  ⟨fun x _ _ => if (11 / 20 : ℝ) ≤ x then 1 else 0, [], 1, 0⟩

theorem stepCfg_density (x y z : ℝ) :
    density stepCfg x y z = if (11 / 20 : ℝ) ≤ x then 1 else 0 := by
  simp [density, deform, stepCfg]

/-- C2 counterexample: for the indicator of x >= 0.55 on the single
coarse bracket [0, 1] with DS = 1 (fine step 1/10), the code re-integrates
the whole bracket interior and returns exp(-1/2) (the fine samples at
0.6, 0.7, 0.8, 0.9 each contribute 1/10, plus the right-edge sample once
more), while the left-half refinement described by the claim returns
exp(-1/10) (all five left-half samples are zero, plus the right-edge
sample); the two integrators disagree at this input. -/
theorem C2_counterexample :
    integrate_hierarchical stepCfg ⟨0, 0, 0⟩ ⟨1, 0, 0⟩ 1 0 1 = Real.exp (-(1 / 2)) ∧
    integrate_hierarchical_specLeftHalf stepCfg ⟨0, 0, 0⟩ ⟨1, 0, 0⟩ 1 0 1 = Real.exp (-(1 / 10)) ∧
    integrate_hierarchical stepCfg ⟨0, 0, 0⟩ ⟨1, 0, 0⟩ 1 0 1 ≠
      integrate_hierarchical_specLeftHalf stepCfg ⟨0, 0, 0⟩ ⟨1, 0, 0⟩ 1 0 1 := by
  have hc : coarseStepCount 0 1 1 = 1 := by
    have : (⌊((1 : ℝ) - 0) / 1⌋ : ℤ) = 1 := by norm_num
    simp [coarseStepCount, this]
  have hray9 : rayStepCount (1 / 10) 1 (1 / 10) = 9 := by
    unfold rayStepCount
    have hd : ((1 : ℝ) - 1 / 10) / (1 / 10) = 9 := by norm_num
    have h9 : (⌈(9 : ℝ)⌉ : ℤ) = 9 := by norm_num
    rw [hd, h9]
    rfl
  have hray5 : rayStepCount 0 (1 / 2) (1 / 10) = 5 := by
    unfold rayStepCount
    have hd : ((1 / 2 : ℝ) - 0) / (1 / 10) = 5 := by norm_num
    have h5 : (⌈(5 : ℝ)⌉ : ℤ) = 5 := by norm_num
    rw [hd, h5]
    rfl
  have h1 : integrate_hierarchical stepCfg ⟨0, 0, 0⟩ ⟨1, 0, 0⟩ 1 0 1 = Real.exp (-(1 / 2)) := by
    unfold integrate_hierarchical
    dsimp only
    rw [hc]
    simp only [unitX_Normalize, stepCfg_density]
    rw [hierLoop]
    norm_num [hray9, riemannLoop, hierLoop, stepCfg]
  have h2 : integrate_hierarchical_specLeftHalf stepCfg ⟨0, 0, 0⟩ ⟨1, 0, 0⟩ 1 0 1 =
      Real.exp (-(1 / 10)) := by
    unfold integrate_hierarchical_specLeftHalf
    dsimp only
    rw [hc]
    simp only [unitX_Normalize, stepCfg_density]
    rw [hierLoopSpecLeftHalf]
    norm_num [hray5, riemannLoop, hierLoopSpecLeftHalf, stepCfg]
  refine ⟨h1, h2, ?_⟩
  rw [h1, h2]
  intro hcontra
  rw [Real.exp_eq_exp] at hcontra
  norm_num at hcontra

theorem densityLoop_greedy_eq (x y z : ℝ) :
    ∀ (objs : List (ℝ → ℝ → ℝ → ℝ)) (acc : ℝ), acc ≤ 0 →
      densityLoop true x y z objs acc = firstPositiveSpec x y z objs := by
  intro objs
  induction objs with
  | nil =>
    intro acc h
    rw [densityLoop, firstPositiveSpec]
    split_ifs with h1 h2
    · rfl
    · linarith
    · linarith
  | cons f rest ih =>
    intro acc h
    rw [densityLoop, firstPositiveSpec]
    by_cases hf : f x y z > 0
    · rw [if_pos ⟨rfl, hf⟩, if_pos hf]
    · have hf0 : f x y z ≤ 0 := le_of_not_lt hf
      rw [if_neg (fun hc => hf hc.2), if_neg hf, ih _ (by linarith)]

theorem densityLoop_sum_eq (x y z : ℝ) :
    ∀ (objs : List (ℝ → ℝ → ℝ → ℝ)) (acc : ℝ),
      densityLoop false x y z objs acc = clipSpec (acc + childDensitySum objs x y z) := by
  intro objs
  induction objs with
  | nil =>
    intro acc
    rw [densityLoop]
    unfold clipSpec childDensitySum
    simp only [List.map_nil, List.sum_nil, add_zero]
    split_ifs with h1 h2
    · rw [max_eq_left (le_of_lt h1), min_eq_right (by norm_num)]
    · rw [max_eq_right (by linarith), min_eq_left (le_of_lt h2)]
    · rw [max_eq_right (by linarith), min_eq_right (by linarith)]
  | cons f rest ih =>
    intro acc
    rw [densityLoop]
    rw [if_neg (by simp), ih]
    unfold childDensitySum
    simp only [List.map_cons, List.sum_cons]
    ring_nf

theorem collectionDensity_char (oc : ObjectCollection) (x y z : ℝ) :
    oc.Density x y z =
      if oc.GreedyDensEval then firstPositiveSpec x y z oc.Objects
      else clipSpec (childDensitySum oc.Objects x y z) := by
  unfold ObjectCollection.Density
  cases h : oc.GreedyDensEval with
  | true => rw [if_pos rfl, densityLoop_greedy_eq x y z oc.Objects 0 le_rfl]
  | false => rw [if_neg (by simp), densityLoop_sum_eq, zero_add]

/-- C3: ObjectCollection.Density is clip(sum of child densities, 0, 1)
when the greedy flag is off, and the density of the first child in
insertion order with strictly positive density (0 when none is
positive) when the greedy flag is on. -/
theorem C3_collection_density_modes (oc : ObjectCollection) (x y z : ℝ) :
    oc.Density x y z =
      if oc.GreedyDensEval then firstPositiveSpec x y z oc.Objects
      else clipSpec (childDensitySum oc.Objects x y z) :=
  collectionDensity_char oc x y z

theorem firstPositiveSpec_nonneg (x y z : ℝ) :
    ∀ objs : List (ℝ → ℝ → ℝ → ℝ), 0 ≤ firstPositiveSpec x y z objs := by
  intro objs
  induction objs with
  | nil => rw [firstPositiveSpec]
  | cons f rest ih =>
    rw [firstPositiveSpec]
    split_ifs with h
    · linarith
    · exact ih

theorem firstPositiveSpec_le_one (x y z : ℝ) :
    ∀ objs : List (ℝ → ℝ → ℝ → ℝ), (∀ f ∈ objs, ∀ a b c : ℝ, f a b c ≤ 1) →
      firstPositiveSpec x y z objs ≤ 1 := by
  intro objs
  induction objs with
  | nil => intro _; rw [firstPositiveSpec]; norm_num
  | cons f rest ih =>
    intro h
    rw [firstPositiveSpec]
    split_ifs with h1
    · exact h f (by simp) x y z
    · exact ih fun f hf => h f (by simp [hf])

theorem clipSpec_mem (d : ℝ) : 0 ≤ clipSpec d ∧ clipSpec d ≤ 1 := by
  unfold clipSpec
  constructor
  · exact le_min (by norm_num) (le_max_left 0 d)
  · exact min_le_left 1 _

/-- C7 (amended): the density of a collection is always non-negative;
with the greedy flag off it always lies in [0, 1] (the final clip); with
the greedy flag on it lies in [0, 1] provided every child density is
bounded by 1 — the greedy early return bypasses the clip, so
non-negativity of the children alone does not bound it. -/
theorem C7_collection_density_range (oc : ObjectCollection) (x y z : ℝ) :
    0 ≤ oc.Density x y z ∧
    (oc.GreedyDensEval = false → oc.Density x y z ≤ 1) ∧
    ((∀ f ∈ oc.Objects, ∀ a b c : ℝ, f a b c ≤ 1) → oc.Density x y z ≤ 1) := by
  rw [collectionDensity_char]
  refine ⟨?_, ?_, ?_⟩
  · split_ifs with h
    · exact firstPositiveSpec_nonneg x y z oc.Objects
    · exact (clipSpec_mem _).1
  · intro h
    rw [if_neg (by simp [h])]
    exact (clipSpec_mem _).2
  · intro h
    split_ifs with hg
    · exact firstPositiveSpec_le_one x y z oc.Objects h
    · exact (clipSpec_mem _).2

theorem C7_collection_density_range_witness :
    0 ≤ ObjectCollection.Density ⟨[fun _ _ _ => 1 / 2], false⟩ 0 0 0 ∧
    ObjectCollection.Density ⟨[fun _ _ _ => 1 / 2], false⟩ 0 0 0 ≤ 1 := by
  have h := C7_collection_density_range ⟨[fun _ _ _ => 1 / 2], false⟩ 0 0 0
  exact ⟨h.1, h.2.1 rfl⟩

/-- C7 counterexample: a greedy collection with the single child density
2 (non-negative everywhere) evaluates to 2 at the origin — the greedy
early return bypasses the clip, so the result is not in [0, 1]. -/
theorem C7_counterexample :
    (∀ f ∈ (⟨[fun _ _ _ => 2], true⟩ : ObjectCollection).Objects, ∀ a b c : ℝ, 0 ≤ f a b c) ∧
    ObjectCollection.Density ⟨[fun _ _ _ => 2], true⟩ 0 0 0 = 2 ∧
    ¬(ObjectCollection.Density ⟨[fun _ _ _ => 2], true⟩ 0 0 0 ≤ 1) := by
  refine ⟨?_, ?_, ?_⟩
  · intro f hf a b c
    simp only [List.mem_singleton] at hf
    subst hf
    norm_num
  · unfold ObjectCollection.Density
    rw [densityLoop]
    norm_num
  · unfold ObjectCollection.Density
    rw [densityLoop]
    norm_num

theorem foldPeriodic (mn mx t : ℝ) (k : ℤ) (h : mn < mx) :
    t + k * (mx - mn) - (mx - mn) * ⌊(t + k * (mx - mn) - mn) / (mx - mn)⌋ =
      t - (mx - mn) * ⌊(t - mn) / (mx - mn)⌋ := by
  have hd : (mx - mn) ≠ 0 := sub_ne_zero.mpr (ne_of_gt h)
  have harg : (t + k * (mx - mn) - mn) / (mx - mn) = (t - mn) / (mx - mn) + k := by
    field_simp
    ring
  rw [harg, Int.floor_add_int]
  push_cast
  ring

/-- C4: for a point inside the outer bounds whose per-axis shift by an
integer multiple of the unit-cell period stays inside the outer bounds,
TessellatedObjColl.Density is unchanged by the shift (the per-axis fold
x - span * floor((x - min)/span) absorbs the integer multiple, also for
negative coordinates); outside the outer bounds the density is 0
regardless of any periodic image. -/
theorem C4_tessellation_periodicity :
    (∀ (l : TessellatedObjColl) (x y z : ℝ) (kx ky kz : ℤ),
      l.UC.Xmin < l.UC.Xmax → l.UC.Ymin < l.UC.Ymax → l.UC.Zmin < l.UC.Zmax →
      l.Xmin ≤ x + kx * (l.UC.Xmax - l.UC.Xmin) → x + kx * (l.UC.Xmax - l.UC.Xmin) ≤ l.Xmax →
      l.Ymin ≤ y + ky * (l.UC.Ymax - l.UC.Ymin) → y + ky * (l.UC.Ymax - l.UC.Ymin) ≤ l.Ymax →
      l.Zmin ≤ z + kz * (l.UC.Zmax - l.UC.Zmin) → z + kz * (l.UC.Zmax - l.UC.Zmin) ≤ l.Zmax →
      l.Xmin ≤ x → x ≤ l.Xmax → l.Ymin ≤ y → y ≤ l.Ymax → l.Zmin ≤ z → z ≤ l.Zmax →
      l.Density (x + kx * (l.UC.Xmax - l.UC.Xmin)) (y + ky * (l.UC.Ymax - l.UC.Ymin))
        (z + kz * (l.UC.Zmax - l.UC.Zmin)) = l.Density x y z) ∧
    (∀ (l : TessellatedObjColl) (x y z : ℝ),
      (x < l.Xmin ∨ x > l.Xmax ∨ y < l.Ymin ∨ y > l.Ymax ∨ z < l.Zmin ∨ z > l.Zmax) →
      l.Density x y z = 0) := by
  constructor
  · intro l x y z kx ky kz hdx hdy hdz hx1 hx2 hy1 hy2 hz1 hz2 hx1o hx2o hy1o hy2o hz1o hz2o
    unfold TessellatedObjColl.Density
    rw [if_neg (by push_neg; exact ⟨hx1, hx2, hy1, hy2, hz1, hz2⟩)]
    rw [if_neg (by push_neg; exact ⟨hx1o, hx2o, hy1o, hy2o, hz1o, hz2o⟩)]
    dsimp only
    rw [foldPeriodic l.UC.Xmin l.UC.Xmax x kx hdx,
        foldPeriodic l.UC.Ymin l.UC.Ymax y ky hdy,
        foldPeriodic l.UC.Zmin l.UC.Zmax z kz hdz]
  · intro l x y z h
    unfold TessellatedObjColl.Density
    rw [if_pos h]

theorem C4_tessellation_periodicity_witness :
    TessellatedObjColl.Density
        ⟨⟨⟨[fun a _ _ => a], true⟩, 0, 1, 0, 1, 0, 1⟩, -2, 2, -2, 2, -2, 2⟩
        (13 / 10) (3 / 10) (3 / 10) =
      TessellatedObjColl.Density
        ⟨⟨⟨[fun a _ _ => a], true⟩, 0, 1, 0, 1, 0, 1⟩, -2, 2, -2, 2, -2, 2⟩
        (3 / 10) (3 / 10) (3 / 10) := by
  have h := C4_tessellation_periodicity.1
    ⟨⟨⟨[fun a _ _ => a], true⟩, 0, 1, 0, 1, 0, 1⟩, -2, 2, -2, 2, -2, 2⟩
    (3 / 10) (3 / 10) (3 / 10) 1 0 0
    (by norm_num) (by norm_num) (by norm_num)
    (by norm_num) (by norm_num) (by norm_num) (by norm_num) (by norm_num) (by norm_num)
    (by norm_num) (by norm_num) (by norm_num) (by norm_num) (by norm_num) (by norm_num)
  norm_num at h
  convert h using 2 <;> norm_num

/-- C5 (amended): with the rigid deformation u = (1,0,0) loaded, the
composed density at (x,y,z) is the undeformed object density at the
point shifted by +u, i.e. at (x+1, y, z) — RigidDeformation.Apply adds
the displacement to the sampling point before the object is evaluated,
so the rendered object appears displaced by -u, not +u. -/
theorem C5_rigid_deformation_shift (lat : ℝ → ℝ → ℝ → ℝ) (mult flat : ℝ) (ty : String)
    (x y z : ℝ) :
    density ⟨lat, [Def.Apply (.rigid [1, 0, 0] ty)], mult, flat⟩ x y z =
      lat (x + 1) y z * mult := by
  simp [density, deform, Def.Apply, idx]

/-- The configuration of the C5 counterexample: a half-space indicator
object with the rigid deformation u = (1,0,0) loaded. -/
noncomputable def rigidCfg : RenderState :=
  ⟨fun a _ _ => if a < 0 then 0 else 1, [Def.Apply (.rigid [1, 0, 0] "rigid")], 1, 0⟩

/-- C5 counterexample: at p = (-1/2, 0, 0) the composed density is the
object density at p + (1,0,0) = (1/2,0,0), namely 1, while the object
density at p - (1,0,0) = (-3/2,0,0) is 0: the composed density does not
equal the undeformed density at p - u. -/
theorem C5_counterexample :
    density rigidCfg (-(1 / 2)) 0 0 = 1 ∧
    rigidCfg.lat (-(1 / 2) - 1) 0 0 * rigidCfg.density_multiplier = 0 ∧
    density rigidCfg (-(1 / 2)) 0 0 ≠
      rigidCfg.lat (-(1 / 2) - 1) 0 0 * rigidCfg.density_multiplier := by
  refine ⟨?_, ?_, ?_⟩
  · norm_num [density, deform, rigidCfg, Def.Apply, idx]
  · norm_num [rigidCfg]
  · norm_num [density, deform, rigidCfg, Def.Apply, idx]

/-- main.go: const cube_half_diagonal = 1.74. -/
def cube_half_diagonal : ℝ := 1.74

/-- The scan window the render loop passes to computePixel for every
pixel ray: smin = R - cube_half_diagonal, smax = R + cube_half_diagonal.
The loaded object (in scope through the lat global) is taken as a
parameter to record that the window the source computes does not depend
on it. -/
def renderScanWindow (lat : ℝ → ℝ → ℝ → ℝ) (R : ℝ) : ℝ × ℝ :=
  (R - cube_half_diagonal, R + cube_half_diagonal)

/-- Written from the words of the spec for comparison: the half-diagonal
of an axis-aligned bounding box with the given side lengths. -/
noncomputable def specHalfDiagonal (sides : Vec3) : ℝ := sides.Len / 2

/-- C9 (amended): the scan window is [R - 1.74, R + 1.74] with the fixed
constant cube_half_diagonal = 1.74 for every loaded object; it does not
scale with any bounding volume the object declares. -/
theorem C9_scan_window_constant :
    (∀ (lat lat' : ℝ → ℝ → ℝ → ℝ) (R : ℝ), renderScanWindow lat R = renderScanWindow lat' R) ∧
    cube_half_diagonal = 1.74 ∧
    (∀ (lat : ℝ → ℝ → ℝ → ℝ) (R : ℝ), renderScanWindow lat R = (R - 1.74, R + 1.74)) := by
  refine ⟨fun _ _ _ => rfl, rfl, fun _ _ => rfl⟩

/-- C9 counterexample: for a loaded object declaring the bounding box
with sides (4,4,4) the half-diagonal is sqrt(48)/2 > 1.74, yet the
render loop still uses the window [R - 1.74, R + 1.74]: the window does
not match [R - k, R + k] for k the declared half-diagonal. -/
theorem C9_counterexample :
    specHalfDiagonal ⟨4, 4, 4⟩ ≠ cube_half_diagonal ∧
    renderScanWindow (fun _ _ _ => 1) 0 = (-cube_half_diagonal, cube_half_diagonal) ∧
    (0 - specHalfDiagonal ⟨4, 4, 4⟩, 0 + specHalfDiagonal ⟨4, 4, 4⟩) ≠
      renderScanWindow (fun _ _ _ => 1) 0 := by
  have hgt : (3.48 : ℝ) < Real.sqrt 48 := by
    have h48 : (0 : ℝ) ≤ 48 := by norm_num
    nlinarith [Real.sq_sqrt h48, Real.sqrt_nonneg (48 : ℝ)]
  have hlen : specHalfDiagonal ⟨4, 4, 4⟩ = Real.sqrt 48 / 2 := by
    unfold specHalfDiagonal Vec3.Len
    norm_num
  have hne : specHalfDiagonal ⟨4, 4, 4⟩ ≠ cube_half_diagonal := by
    rw [hlen]
    unfold cube_half_diagonal
    intro h
    nlinarith
  refine ⟨hne, ?_, ?_⟩
  · unfold renderScanWindow
    norm_num
  · intro h
    unfold renderScanWindow at h
    have := congrArg Prod.fst h
    simp at this
    exact hne (by linarith [this])

/-- C10: a cylinder descriptor with valid p0, p1 and radius but no rho
key at all loads successfully with the default Rho = 1.0 (the other
fields still fail when missing or mistyped). -/
theorem C10_cylinder_rho_default (data : Doc) (l0 l1 : List Val) (p0 p1 : Vec3) (radius : ℝ)
    (h0 : getVal data "p0" = some (.list l0)) (hv0 : ToVec l0 = .ok p0)
    (h1 : getVal data "p1" = some (.list l1)) (hv1 : ToVec l1 = .ok p1)
    (hr : getVal data "radius" = some (.num radius))
    (hrho : getVal data "rho" = none) :
    cylinderFromMap data = .ok (.cylinder p0 p1 radius 1) := by
  unfold cylinderFromMap
  simp only [h0, hv0, h1, hv1, hr, hrho, asFloat]

theorem C10_cylinder_rho_default_witness :
    cylinderFromMap
        [kv "p0" (.list [.num 0, .num 0, .num 0]), kv "p1" (.list [.num 1, .num 0, .num 0]),
         kv "radius" (.num (1 / 4))] =
      .ok (.cylinder ⟨0, 0, 0⟩ ⟨1, 0, 0⟩ (1 / 4) 1) :=
  C10_cylinder_rho_default _ _ _ ⟨0, 0, 0⟩ ⟨1, 0, 0⟩ (1 / 4) rfl rfl rfl rfl rfl rfl

theorem childFromMap_unknown (entries : Doc)
    (h : ∀ s, getVal entries "type" = some (.str s) → s ∉ supportedChildTypes) :
    childFromMap (.map entries) = .error (.returned "unknown object type") := by
  unfold childFromMap
  cases hty : getVal entries "type" with
  | none => rfl
  | some v =>
    cases v
    case str t =>
      obtain ⟨h1, h2, h3, h4, h5, h6⟩ :
          ¬t = "sphere" ∧ ¬t = "cube" ∧ ¬t = "box" ∧ ¬t = "cylinder" ∧
          ¬t = "parallelepiped" ∧ ¬t = "tessellated_obj_coll" := by
        simpa [supportedChildTypes, not_or] using h t hty
      dsimp only
      rw [if_neg h1, if_neg h2, if_neg h3, if_neg h4, if_neg h5, if_neg h6]
    all_goals rfl

theorem collChildren_error :
    ∀ (l : List Val) (entries : Doc),
      (∃ v ∈ l, v = Val.map entries ∧
        (∀ s, getVal entries "type" = some (.str s) → s ∉ supportedChildTypes)) →
      ∃ e, collChildren l = .error e := by
  intro l
  induction l with
  | nil =>
    intro entries h
    obtain ⟨v, hv, _⟩ := h
    simp at hv
  | cons v rest ih =>
    intro entries h
    obtain ⟨w, hw, hmap, hty⟩ := h
    rw [collChildren]
    rcases List.mem_cons.mp hw with hhead | htail
    · subst hhead
      rw [hmap, childFromMap_unknown entries hty]
      exact ⟨_, rfl⟩
    · cases hcf : childFromMap v with
      | error e => exact ⟨e, rfl⟩
      | ok o =>
          obtain ⟨e, he⟩ := ih entries ⟨w, htail, hmap, hty⟩
          rw [he]
          exact ⟨e, rfl⟩

/-- C8: an unknown or missing type discriminant makes every
deserialization entry point return an error and no entity: NewObject
(and ObjectFactory.Create), NewDeformation, and the per-child type
switch inside ObjectCollection.FromMap. -/
theorem C8_unknown_type_is_error :
    (∀ (loadRaw : String → ℤ × ℤ × ℤ → String → Except GoErr (List ℝ)) (data : Doc),
      (∀ s, getVal data "type" = some (.str s) → s ∉ supportedObjectTypes) →
      ∃ msg, NewObject loadRaw data = .error (.returned msg)) ∧
    (∀ data : Doc,
      (∀ s, getVal data "type" = some (.str s) → s ∉ supportedDeformationTypes) →
      ∃ msg, NewDeformation data = .error (.returned msg)) ∧
    (∀ (data : Doc) (objs : List Val) (entries : Doc),
      getVal data "objects" = some (.list objs) →
      (∃ v ∈ objs, v = Val.map entries ∧
        (∀ s, getVal entries "type" = some (.str s) → s ∉ supportedChildTypes)) →
      ∃ e, objectCollectionFromMap data = .error e) := by
  refine ⟨?_, ?_, ?_⟩
  · intro loadRaw data h
    unfold NewObject
    cases hty : getVal data "type" with
    | none => exact ⟨_, rfl⟩
    | some v =>
      cases v
      case str t =>
        obtain ⟨h1, h2, h3, h4, h5, h6, h7, h8, h9⟩ :
            ¬t = "sphere" ∧ ¬t = "cube" ∧ ¬t = "box" ∧ ¬t = "cylinder" ∧
            ¬t = "parallelepiped" ∧ ¬t = "gyroid" ∧ ¬t = "object_collection" ∧
            ¬t = "tessellated_obj_coll" ∧ ¬t = "voxel_grid" := by
          simpa [supportedObjectTypes, not_or] using h t hty
        dsimp only
        rw [if_neg h1, if_neg h2, if_neg h3, if_neg h4, if_neg h5, if_neg h6, if_neg h7,
          if_neg h8, if_neg h9]
        exact ⟨_, rfl⟩
      all_goals exact ⟨_, rfl⟩
  · intro data h
    unfold NewDeformation
    cases hty : getVal data "type" with
    | none => exact ⟨_, rfl⟩
    | some v =>
      cases v
      case str t =>
        obtain ⟨h1, h2, h3, h4, h5, h6⟩ :
            ¬t = "gaussian" ∧ ¬t = "linear" ∧ ¬t = "rigid" ∧ ¬t = "sigmoid" ∧
            ¬t = "composed" ∧ ¬t = "affine" := by
          simpa [supportedDeformationTypes, not_or] using h t hty
        dsimp only
        rw [if_neg h1, if_neg h2, if_neg h3, if_neg h4, if_neg h5, if_neg h6]
        exact ⟨_, rfl⟩
      all_goals exact ⟨_, rfl⟩
  · intro data objs entries hobj hbad
    unfold objectCollectionFromMap collFromMapCore
    rw [hobj]
    obtain ⟨e, he⟩ := collChildren_error objs entries hbad
    dsimp only
    rw [he]
    exact ⟨e, rfl⟩

theorem C8_unknown_type_is_error_witness :
    (∃ msg, NewObject (fun _ _ _ => .error (.returned "io")) [kv "type" (.str "wedge")] =
      .error (.returned msg)) ∧
    (∃ msg, NewDeformation [] = .error (.returned msg)) ∧
    (∃ e, objectCollectionFromMap [kv "objects" (.list [.map [kv "type" (.str "wedge")]])] =
      .error e) := by
  refine ⟨C8_unknown_type_is_error.1 _ _ ?_, C8_unknown_type_is_error.2.1 _ ?_,
    C8_unknown_type_is_error.2.2 _ _ [kv "type" (.str "wedge")] rfl
      ⟨.map [kv "type" (.str "wedge")], by simp, rfl, ?_⟩⟩
  · intro s hs
    simp [getVal, kv] at hs
    subst hs
    simp [supportedObjectTypes]
  · intro s hs
    simp [getVal] at hs
  · intro s hs
    simp [getVal, kv] at hs
    subst hs
    simp [supportedChildTypes]

theorem floatListStrict_map (l : List ℝ) : floatListStrict (l.map Val.num) = .ok l := by
  induction l with
  | nil => rfl
  | cons r rest ih => rw [List.map_cons, floatListStrict, ih]

theorem sphere_roundtrip (c : Vec3) (r rho : ℝ) :
    sphereFromMap (Obj.toMap (.sphere c r rho)) = .ok (.sphere c r rho) := by
  simp only [Obj.toMap]
  rfl

theorem cube_roundtrip (c : Vec3) (side rho : ℝ) :
    cubeFromMap (Obj.toMap (.cube c side rho)) = .ok (.cube c side rho) := by
  simp only [Obj.toMap]
  rfl

theorem box_roundtrip (c sides : Vec3) (rho : ℝ) :
    boxFromMap (Obj.toMap (.box c sides rho)) = .ok (.box c sides rho) := by
  simp only [Obj.toMap]
  rfl

theorem cylinder_roundtrip (p0 p1 : Vec3) (r rho : ℝ) :
    cylinderFromMap (Obj.toMap (.cylinder p0 p1 r rho)) = .ok (.cylinder p0 p1 r rho) := by
  simp only [Obj.toMap]
  rfl

theorem parallelepiped_roundtrip (o v0 v1 v2 : Vec3) (rho : ℝ) :
    parallelepipedFromMap (Obj.toMap (.parallelepiped o v0 v1 v2 rho)) =
      .ok (.parallelepiped o v0 v1 v2 rho) := by
  simp only [Obj.toMap]
  rfl

theorem gaussian_roundtrip (a s c : List ℝ) (ty : String) :
    gaussianFromMap (Def.toMap (.gaussian a s c ty)) = .ok (.gaussian a s c ty) := by
  simp only [Def.toMap]
  unfold gaussianFromMap numList
  simp only [getVal, kv, String.reduceEq, reduceIte, floatListStrict_map, asStr]

theorem linear_roundtrip (l : List ℝ) (ty : String) :
    linearFromMap (Def.toMap (.linear l ty)) = .ok (.linear l ty) := by
  simp only [Def.toMap]
  unfold linearFromMap numList
  simp only [getVal, kv, String.reduceEq, reduceIte, floatListStrict_map, asStr]

theorem rigid_roundtrip (l : List ℝ) (ty : String) :
    rigidFromMap (Def.toMap (.rigid l ty)) = .ok (.rigid l ty) := by
  simp only [Def.toMap]
  unfold rigidFromMap numList
  simp only [getVal, kv, String.reduceEq, reduceIte, floatListStrict_map, asStr]

theorem sigmoid_roundtrip (a c l : ℝ) (dir ty : String) :
    sigmoidFromMap (Def.toMap (.sigmoid a c l dir ty)) = .ok (.sigmoid a c l dir ty) := by
  simp only [Def.toMap]
  rfl

theorem affine_roundtrip (m : Mat3) (ty : String) :
    affineFromMap (Def.toMap (.affine m ty)) = .ok (.affine m ty) := by
  simp only [Def.toMap]
  rfl

theorem newDeformation_child (d : Def) (h : childTyMatched d = true) :
    NewDeformation (Def.toMap d) = .ok d := by
  cases d with
  | gaussian a s c ty =>
      have hty : ty = "gaussian" := by simpa [childTyMatched] using h
      subst hty
      unfold NewDeformation
      simp only [Def.toMap, getVal, kv, String.reduceEq, reduceIte]
      have h1 := gaussian_roundtrip a s c "gaussian"
      simp only [Def.toMap] at h1
      exact h1
  | affine m ty =>
      have hty : ty = "affine" := by simpa [childTyMatched] using h
      subst hty
      unfold NewDeformation
      simp only [Def.toMap, getVal, kv, String.reduceEq, reduceIte]
      have h1 := affine_roundtrip m "affine"
      simp only [Def.toMap] at h1
      exact h1
  | linear l ty =>
      have hty : ty = "linear" := by simpa [childTyMatched] using h
      subst hty
      unfold NewDeformation
      simp only [Def.toMap, getVal, kv, String.reduceEq, reduceIte]
      have h1 := linear_roundtrip l "linear"
      simp only [Def.toMap] at h1
      exact h1
  | rigid l ty =>
      have hty : ty = "rigid" := by simpa [childTyMatched] using h
      subst hty
      unfold NewDeformation
      simp only [Def.toMap, getVal, kv, String.reduceEq, reduceIte]
      have h1 := rigid_roundtrip l "rigid"
      simp only [Def.toMap] at h1
      exact h1
  | sigmoid a c l dir ty =>
      have hty : ty = "sigmoid" := by simpa [childTyMatched] using h
      subst hty
      unfold NewDeformation
      simp only [Def.toMap, getVal, kv, String.reduceEq, reduceIte]
      have h1 := sigmoid_roundtrip a c l dir "sigmoid"
      simp only [Def.toMap] at h1
      exact h1
  | composed ds => simp [childTyMatched] at h

theorem defChildren_roundtrip :
    ∀ ds : List Def, ds.all childTyMatched = true →
      defChildren (defToMapList ds) = .ok ds := by
  intro ds
  induction ds with
  | nil => intro _; rw [defToMapList, defChildren]
  | cons d rest ih =>
      intro h
      obtain ⟨hd, hrest⟩ : childTyMatched d = true ∧ rest.all childTyMatched = true := by
        simpa [List.all_cons, Bool.and_eq_true] using h
      rw [defToMapList, defChildren, newDeformation_child d hd, ih hrest]

theorem composed_roundtrip (ds : List Def) (h : ds.all childTyMatched = true) :
    composedFromMap (Def.toMap (.composed ds)) = .ok (.composed ds) := by
  simp only [Def.toMap]
  unfold composedFromMap
  split
  next ds1 hobj =>
    simp only [getVal, kv, String.reduceEq, reduceIte, Option.some.injEq, Val.list.injEq] at hobj
    subst hobj
    rw [defChildren_roundtrip ds h]
  next hobj =>
    simp only [getVal, kv, String.reduceEq, reduceIte] at hobj
    exact absurd rfl (hobj (defToMapList ds))

theorem obj_roundtrip_aux :
    ∀ (n : ℕ) (x : Obj), sizeOf x ≤ n → wfObj x = true →
      Obj.fromMapSelf x (Obj.toMap x) = .ok (loadNormal x) := by
  intro n
  induction n with
  | zero =>
    intro x hx _
    exfalso
    cases x <;> simp at hx <;> omega
  | succ n ih =>
    have hchild : ∀ (o : Obj), sizeOf o ≤ n → okChildKind o = true → wfObj o = true →
        childFromMap (.map (Obj.toMap o)) = .ok (loadNormal o) := by
      intro o ho hkind hwfo
      cases o with
      | sphere c r rho =>
          unfold childFromMap
          simp only [Obj.toMap, getVal, kv, String.reduceEq, reduceIte]
          have h1 := sphere_roundtrip c r rho
          simp only [Obj.toMap, kv] at h1
          rw [h1]
          simp only [loadNormal]
      | cube c side rho =>
          unfold childFromMap
          simp only [Obj.toMap, getVal, kv, String.reduceEq, reduceIte]
          have h1 := cube_roundtrip c side rho
          simp only [Obj.toMap, kv] at h1
          rw [h1]
          simp only [loadNormal]
      | box c sides rho =>
          unfold childFromMap
          simp only [Obj.toMap, getVal, kv, String.reduceEq, reduceIte]
          have h1 := box_roundtrip c sides rho
          simp only [Obj.toMap, kv] at h1
          rw [h1]
          simp only [loadNormal]
      | cylinder p0 p1 r rho =>
          unfold childFromMap
          simp only [Obj.toMap, getVal, kv, String.reduceEq, reduceIte]
          have h1 := cylinder_roundtrip p0 p1 r rho
          simp only [Obj.toMap, kv] at h1
          rw [h1]
          simp only [loadNormal]
      | parallelepiped o0 v0 v1 v2 rho =>
          unfold childFromMap
          simp only [Obj.toMap, getVal, kv, String.reduceEq, reduceIte]
          have h1 := parallelepiped_roundtrip o0 v0 v1 v2 rho
          simp only [Obj.toMap, kv] at h1
          rw [h1]
          simp only [loadNormal]
      | tessellatedObjColl ucObjs g ucB b =>
          unfold childFromMap
          simp only [Obj.toMap, getVal, kv, String.reduceEq, reduceIte]
          have h1 := ih (.tessellatedObjColl ucObjs g ucB b) ho hwfo
          simp only [Obj.fromMapSelf, Obj.toMap, kv] at h1
          exact h1
      | objectCollection objs g => simp [okChildKind] at hkind
      | gyroid c sc t r => simp [okChildKind] at hkind
      | voxelGrid r nx ny nz p => simp [okChildKind] at hkind
    have hlist : ∀ (l : List Obj), sizeOf l ≤ n + 1 → wfChildren l = true →
        collChildren (toMapList l) = .ok (loadNormalList l) := by
      intro l
      induction l with
      | nil =>
        intro _ _
        rw [toMapList, collChildren, loadNormalList]
      | cons o os iho =>
        intro hs hw
        have hsz : sizeOf o ≤ n ∧ sizeOf os ≤ n + 1 := by
          simp at hs
          omega
        obtain ⟨⟨hk, hwo⟩, hwos⟩ : (okChildKind o = true ∧ wfObj o = true) ∧
            wfChildren os = true := by
          have := hw
          rw [wfChildren] at this
          simpa [Bool.and_eq_true] using this
        rw [toMapList, collChildren, hchild o hsz.1 hk hwo, iho hsz.2 hwos, loadNormalList]
    intro x hx hwf
    cases x with
    | sphere c r rho =>
        simp only [Obj.fromMapSelf, loadNormal]
        exact sphere_roundtrip c r rho
    | cube c side rho =>
        simp only [Obj.fromMapSelf, loadNormal]
        exact cube_roundtrip c side rho
    | box c sides rho =>
        simp only [Obj.fromMapSelf, loadNormal]
        exact box_roundtrip c sides rho
    | cylinder p0 p1 r rho =>
        simp only [Obj.fromMapSelf, loadNormal]
        exact cylinder_roundtrip p0 p1 r rho
    | parallelepiped o0 v0 v1 v2 rho =>
        simp only [Obj.fromMapSelf, loadNormal]
        exact parallelepiped_roundtrip o0 v0 v1 v2 rho
    | gyroid c sc t r => simp [wfObj] at hwf
    | voxelGrid r nx ny nz p => simp [wfObj] at hwf
    | objectCollection objs g =>
        have hw : wfChildren objs = true := by
          have := hwf
          rw [wfObj] at this
          exact this
        have hsz : sizeOf objs ≤ n + 1 := by
          simp at hx
          omega
        have hcore : collFromMapCore (Obj.toMap (.objectCollection objs g)) =
            .ok (loadNormalList objs, false) := by
          unfold collFromMapCore
          split
          next b hobj =>
            simp only [Obj.toMap, getVal, kv, String.reduceEq, reduceIte] at hobj
            exact Option.noConfusion hobj
          next =>
            split
            next objs1 hobj2 =>
              simp only [Obj.toMap, getVal, kv, String.reduceEq, reduceIte, Option.some.injEq,
                Val.list.injEq] at hobj2
              subst hobj2
              rw [hlist objs hsz hw]
            next hobj2 =>
              simp only [Obj.toMap, getVal, kv, String.reduceEq, reduceIte] at hobj2
              exact absurd rfl (hobj2 (toMapList objs))
        simp only [Obj.fromMapSelf]
        unfold objectCollectionFromMap
        rw [hcore]
        simp only [loadNormal]
    | tessellatedObjColl ucObjs g ucB b =>
        have hw : wfChildren ucObjs = true := by
          have := hwf
          rw [wfObj] at this
          exact this
        have hsz : sizeOf ucObjs ≤ n + 1 := by
          simp at hx
          omega
        have hcore : collFromMapCore [kv "type" (.str "object_collection"),
            kv "objects" (.list (toMapList ucObjs))] = .ok (loadNormalList ucObjs, false) := by
          unfold collFromMapCore
          split
          next b hobj =>
            simp only [getVal, kv, String.reduceEq, reduceIte] at hobj
            exact Option.noConfusion hobj
          next =>
            split
            next objs1 hobj2 =>
              simp only [getVal, kv, String.reduceEq, reduceIte, Option.some.injEq,
                Val.list.injEq] at hobj2
              subst hobj2
              rw [hlist ucObjs hsz hw]
            next hobj2 =>
              simp only [getVal, kv, String.reduceEq, reduceIte] at hobj2
              exact absurd rfl (hobj2 (toMapList ucObjs))
        simp only [kv] at hcore
        have hucb : boundsFromMap [kv "type" (.str "unit_cell"),
            kv "objects" (.map [kv "type" (.str "object_collection"),
              kv "objects" (.list (toMapList ucObjs))]),
            kv "xmin" (.num ucB.xmin), kv "xmax" (.num ucB.xmax),
            kv "ymin" (.num ucB.ymin), kv "ymax" (.num ucB.ymax),
            kv "zmin" (.num ucB.zmin), kv "zmax" (.num ucB.zmax)] = .ok ucB := rfl
        simp only [kv] at hucb
        have houter : boundsFromMap (Obj.toMap (.tessellatedObjColl ucObjs g ucB b)) =
            .ok b := by
          simp only [Obj.toMap]
          rfl
        have huc : unitCellFromMap [kv "type" (.str "unit_cell"),
            kv "objects" (.map [kv "type" (.str "object_collection"),
              kv "objects" (.list (toMapList ucObjs))]),
            kv "xmin" (.num ucB.xmin), kv "xmax" (.num ucB.xmax),
            kv "ymin" (.num ucB.ymin), kv "ymax" (.num ucB.ymax),
            kv "zmin" (.num ucB.zmin), kv "zmax" (.num ucB.zmax)] =
            .ok (loadNormalList ucObjs, true, ucB) := by
          unfold unitCellFromMap
          split
          next collData hcoll =>
            simp only [getVal, kv, String.reduceEq, reduceIte, Option.some.injEq,
              Val.map.injEq] at hcoll
            subst hcoll
            rw [hcore]
            simp only [kv] at hucb ⊢
            rw [hucb]
          next hcoll =>
            simp only [getVal, kv, String.reduceEq, reduceIte] at hcoll
            exact absurd rfl (hcoll _)
        simp only [kv] at huc
        simp only [Obj.fromMapSelf]
        unfold tessFromMap
        split
        next ucData huc2 =>
          simp only [Obj.toMap, getVal, kv, String.reduceEq, reduceIte, Option.some.injEq,
            Val.map.injEq] at huc2
          subst huc2
          rw [huc, houter]
          simp only [loadNormal]
        next huc2 =>
          simp only [Obj.toMap, getVal, kv, String.reduceEq, reduceIte] at huc2
          exact absurd rfl (huc2 _)

theorem toMapList_mem :
    ∀ (l : List Obj) (o : Obj), o ∈ l → Val.map (Obj.toMap o) ∈ toMapList l := by
  intro l
  induction l with
  | nil =>
    intro o ho
    simp at ho
  | cons w rest ih =>
    intro o ho
    rw [toMapList]
    rcases List.mem_cons.mp ho with h | h
    · subst h
      exact List.mem_cons_self _ _
    · exact List.mem_cons_of_mem _ (ih o h)

theorem collChildren_member_error :
    ∀ (l : List Val) (v : Val), v ∈ l → (∃ e0, childFromMap v = .error e0) →
      ∃ e, collChildren l = .error e := by
  intro l
  induction l with
  | nil =>
    intro v hv _
    simp at hv
  | cons w rest ih =>
    intro v hv he
    rw [collChildren]
    rcases List.mem_cons.mp hv with hhead | htail
    · subst hhead
      obtain ⟨e0, he0⟩ := he
      rw [he0]
      exact ⟨e0, rfl⟩
    · cases hcf : childFromMap w with
      | error e => exact ⟨e, rfl⟩
      | ok o =>
          obtain ⟨e, hee⟩ := ih v htail he
          rw [hee]
          exact ⟨e, rfl⟩

/-- The serialized form of an object_collection hits the default branch
of the per-child type switch of ObjectCollection.FromMap: the switch has
no object_collection case, so a nested collection child is an unknown
type. -/
theorem childFromMap_nestedCollection (cObjs : List Obj) (cg : Bool) :
    childFromMap (.map (Obj.toMap (.objectCollection cObjs cg))) =
      .error (.returned "unknown object type") := by
  unfold childFromMap
  simp only [Obj.toMap, getVal, kv, String.reduceEq, reduceIte]

/-- C6 (amended): deserializing the descriptor produced by serializing x
succeeds and reproduces the semantic fields for sphere, cube, box,
cylinder and parallelepiped values, and for every deformation variant
(for a composed chain: one whose children carry their variant name in
Type and are not themselves composed); for collections whose children
are among the types the per-child switch of ObjectCollection.FromMap
supports (sphere, cube, box, cylinder, parallelepiped,
tessellated_obj_coll — wfObj), every field is reproduced except the
greedy flag, which ToMap does not serialize: a plain object_collection
reloads with GreedyDensEval = false and the collection inside a unit
cell is forced back to true (loadNormal).  A collection with a nested
object_collection child is excluded because its descriptor does not
deserialize at all: the child switch has no object_collection case, so
FromMap(ToMap(x)) returns the unknown-object-type error and reproduces
nothing (third conjunct). -/
theorem C6_serialization_roundtrip :
    (∀ x : Obj, wfObj x = true → Obj.fromMapSelf x (Obj.toMap x) = .ok (loadNormal x)) ∧
    (∀ d : Def, wfDef d = true → Def.fromMapSelf d (Def.toMap d) = .ok d) ∧
    (∀ (objs : List Obj) (g : Bool) (cObjs : List Obj) (cg : Bool),
      Obj.objectCollection cObjs cg ∈ objs →
      ∃ e, Obj.fromMapSelf (Obj.objectCollection objs g)
        (Obj.toMap (Obj.objectCollection objs g)) = .error e) := by
  refine ⟨?_, ?_, ?_⟩
  · intro x hwf
    exact obj_roundtrip_aux (sizeOf x) x le_rfl hwf
  · intro d hwf
    cases d with
    | gaussian a s c ty => exact gaussian_roundtrip a s c ty
    | affine m ty => exact affine_roundtrip m ty
    | linear l ty => exact linear_roundtrip l ty
    | rigid l ty => exact rigid_roundtrip l ty
    | sigmoid a c l dir ty => exact sigmoid_roundtrip a c l dir ty
    | composed ds =>
        have h : ds.all childTyMatched = true := by
          have := hwf
          rw [wfDef] at this
          exact this
        exact composed_roundtrip ds h
  · intro objs g cObjs cg hmem
    obtain ⟨e, he⟩ := collChildren_member_error (toMapList objs) _
      (toMapList_mem objs _ hmem) ⟨_, childFromMap_nestedCollection cObjs cg⟩
    have hcore : ∃ e2, collFromMapCore (Obj.toMap (.objectCollection objs g)) =
        .error e2 := by
      unfold collFromMapCore
      split
      next b hobj =>
        simp only [Obj.toMap, getVal, kv, String.reduceEq, reduceIte] at hobj
        exact Option.noConfusion hobj
      next =>
        split
        next objs1 hobj2 =>
          simp only [Obj.toMap, getVal, kv, String.reduceEq, reduceIte, Option.some.injEq,
            Val.list.injEq] at hobj2
          subst hobj2
          rw [he]
          exact ⟨e, rfl⟩
        next hobj2 =>
          exact ⟨_, rfl⟩
    obtain ⟨e2, he2⟩ := hcore
    simp only [Obj.fromMapSelf]
    unfold objectCollectionFromMap
    rw [he2]
    exact ⟨e2, rfl⟩

theorem C6_serialization_roundtrip_witness :
    Obj.fromMapSelf (Obj.sphere ⟨1, 2, 3⟩ 4 5) (Obj.toMap (Obj.sphere ⟨1, 2, 3⟩ 4 5)) =
      .ok (loadNormal (Obj.sphere ⟨1, 2, 3⟩ 4 5)) ∧
    Def.fromMapSelf (Def.rigid [1, 0, 0] "rigid") (Def.toMap (Def.rigid [1, 0, 0] "rigid")) =
      .ok (Def.rigid [1, 0, 0] "rigid") ∧
    (∃ e, Obj.fromMapSelf (Obj.objectCollection [Obj.objectCollection [] false] true)
      (Obj.toMap (Obj.objectCollection [Obj.objectCollection [] false] true)) = .error e) :=
  ⟨C6_serialization_roundtrip.1 _ (by simp [wfObj]),
   C6_serialization_roundtrip.2.1 _ (by simp [wfDef]),
   C6_serialization_roundtrip.2.2 [Obj.objectCollection [] false] true [] false (by simp)⟩

/-- C6 counterexample: an ObjectCollection with GreedyDensEval = true
round trips to GreedyDensEval = false, because ToMap never writes the
greedy_dens_eval key; the semantic greedy flag (which changes Density
behaviour) is not reproduced. -/
theorem C6_counterexample :
    Obj.fromMapSelf (Obj.objectCollection [] true) (Obj.toMap (Obj.objectCollection [] true)) =
      .ok (Obj.objectCollection [] false) ∧
    Obj.fromMapSelf (Obj.objectCollection [] true) (Obj.toMap (Obj.objectCollection [] true)) ≠
      .ok (Obj.objectCollection [] true) := by
  have h := obj_roundtrip_aux (sizeOf (Obj.objectCollection [] true))
    (Obj.objectCollection [] true) le_rfl (by simp [wfObj, wfChildren])
  simp only [loadNormal, loadNormalList] at h
  refine ⟨h, ?_⟩
  rw [h]
  intro hc
  simp only [Except.ok.injEq, Obj.objectCollection.injEq] at hc
  exact Bool.false_ne_true hc.2
